import Mathlib

/-!
Verification of the task-manager lifecycle engine (`src/index.ts`).

The TypeScript core is shallowly embedded: the persisted document
(`TaskManagerFile`) is the state, every mutating tool handler becomes a pure
function from the state (plus its validated arguments and a caller-supplied
timestamp string standing for `new Date().toISOString()`) to a result object
and the successor state.  JavaScript strings are modelled by `String`,
JS numbers occurring here (counters, array lengths, percentages) by `Nat`,
`undefined`-able fields by `Option`.  The percentage expression
`Math.round((completedCount / subtasks.length) * 100)` is evaluated by the
program in IEEE-754 binary64 arithmetic, and is embedded faithfully: the
division and the multiplication each round to the nearest double (ties to
even) and `Math.round` then rounds the resulting double's exact value to the
nearest integer (ties toward positive infinity); see `jsPct`.
-/

namespace TodoBuild

/-! ## Data model (interfaces `Subtask`, `Task`, `RequestEntry`, `TaskManagerFile`) -/

inductive SubtaskStatus
  | pending
  | in_progress
  | completed
  | cancelled
deriving DecidableEq, Repr, Fintype

structure Subtask where
  id : String
  content : String
  status : SubtaskStatus
  createdAt : String
  completedAt : Option String := none
deriving DecidableEq, Repr

structure Task where
  id : String
  title : String
  description : String
  done : Bool
  approved : Bool
  completedDetails : String
  subtasks : Option (List Subtask) := none
  completionPercentage : Option Nat := none
deriving DecidableEq, Repr

structure RequestEntry where
  requestId : String
  originalRequest : String
  splitDetails : String
  tasks : List Task
  completed : Bool
deriving DecidableEq, Repr

structure TaskManagerFile where
  requests : List RequestEntry
deriving DecidableEq, Repr

def emptyFile : TaskManagerFile := { requests := [] }

/-! ## Generic list helpers

`updateFirst` is JS `find`/`findIndex` followed by an in-place mutation of the
found element; `removeFirst` is `findIndex` followed by `splice(index, 1)`;
`maxNat` is `xs.length > 0 ? Math.max(...xs) : 0` for natural numbers. -/

def updateFirst {α : Type} (p : α → Bool) (f : α → α) : List α → List α
  | [] => []
  | a :: l => if p a then f a :: l else a :: updateFirst p f l

def removeFirst {α : Type} (p : α → Bool) : List α → List α
  | [] => []
  | a :: l => if p a then l else a :: removeFirst p l

def maxNat (l : List Nat) : Nat := l.foldr max 0

/-! ## JS string helpers

These are written over `List Char` with structural recursion (the standard
`String` routines in this toolchain do not always reduce inside the kernel).
`digitsPrefix` models `Number.parseInt(s, 10)` restricted to the unsigned
decimal strings this program produces (`parseInt` returns `NaN`, modelled
`none`, when the string does not start with a digit).  `replaceFirst`
models `String.prototype.replace` with a plain-string pattern, which
replaces only the first occurrence.  `jsOr s d` models `s || d` for a
possibly-`undefined` string `s` (the empty string is falsy). -/

/-- Index of the first occurrence of `sep` in `l`, if any. -/
def findSubIdx (sep : List Char) : List Char → Option Nat
  | [] => if sep.isEmpty then some 0 else none
  | c :: rest =>
    if sep.isPrefixOf (c :: rest) then some 0
    else (findSubIdx sep rest).map (fun n => n + 1)

/-- Decimal value of a digit list. -/
def digitsVal (l : List Char) : Nat :=
  l.foldl (fun acc c => acc * 10 + (c.toNat - 48)) 0

def digitsPrefix (s : String) : Option Nat :=
  let ds := s.toList.takeWhile Char.isDigit
  if ds.isEmpty then none else some (digitsVal ds)

def replaceFirst (s pat : String) : String :=
  match findSubIdx pat.toList s.toList with
  | some i => String.mk (s.toList.take i ++ s.toList.drop (i + pat.length))
  | none => s

/-- `toLowerCase` (ASCII letters, all this program compares). -/
def lowerStr (s : String) : String := String.mk (s.toList.map Char.toLower)

def isJsSpace (c : Char) : Bool := c == ' ' || c == '\t' || c == '\n' || c == '\r'

/-- `String.prototype.trim` (restricted to the ASCII whitespace occurring
here). -/
def trimStr (s : String) : String :=
  String.mk (((s.toList.dropWhile isJsSpace).reverse.dropWhile isJsSpace).reverse)

def jsOr (o : Option String) (dflt : String) : String :=
  match o with
  | some s => if s == "" then dflt else s
  | none => dflt

def optTruthy : Option String → Bool
  | some s => s != ""
  | none => false

/-- `parseInt(t.id.split('-task-')[1]) || 0` from `addTasksToRequest`:
`split('-task-')[1]` is the text between the first occurrence of `-task-`
and the following one (or the end). -/
def taskNumOf (id : String) : Nat :=
  match findSubIdx "-task-".toList id.toList with
  | none => 0
  | some i =>
    let rest := id.toList.drop (i + 6)
    let second :=
      match findSubIdx "-task-".toList rest with
      | some j => rest.take j
      | none => rest
    let ds := second.takeWhile Char.isDigit
    if ds.isEmpty then 0 else digitsVal ds

/-- The trailing `-subtask-(\d+)$` regex match from `loadTasks`. -/
def subtaskNumOf (id : String) : Option Nat :=
  let rev := id.toList.reverse
  let ds := rev.takeWhile Char.isDigit
  if ds.isEmpty then none
  else if "-subtask-".toList.reverse.isPrefixOf (rev.drop ds.length) then
    some (digitsVal ds.reverse)
  else none

/-- `parseInt(req.requestId.replace("req-", ""), 10)` from `loadTasks`. -/
def reqNumOf (rid : String) : Option Nat := digitsPrefix (replaceFirst rid "req-")

/-- `loadTasks` recomputes the request counter as the maximum parsed
request number (0 when there is none). -/
def loadRequestCounter (s : TaskManagerFile) : Nat :=
  maxNat (s.requests.filterMap (fun r => reqNumOf r.requestId))

/-- `loadTasks` recomputes the global task/subtask counter as the maximum
trailing `-subtask-<n>` number over every subtask id in the document. -/
def loadTaskCounter (s : TaskManagerFile) : Nat :=
  maxNat ((s.requests.map (fun r =>
    (r.tasks.map (fun t =>
      (t.subtasks.getD []).filterMap (fun st => subtaskNumOf st.id))).flatten)).flatten)

/-! ## Validation rules -/

/-- Round `a / b` to the nearest integer, ties to even (the rounding mode
IEEE-754 applies to every arithmetic result). -/
def rne (a b : Nat) : Nat :=
  let q := a / b
  let r := a % b
  if 2 * r > b then q + 1
  else if 2 * r < b then q
  else if q % 2 = 0 then q else q + 1

/-- Fuel-driven search for the least `k` with `t ≤ c * 2 ^ k` (the fuel is
only a structural-recursion bound; `fuel = t` always suffices for
`1 ≤ c`). -/
def fpNormExpAux (t : Nat) : Nat → Nat → Nat
  | _, 0 => 0
  | c, fuel + 1 => if t ≤ c then 0 else fpNormExpAux t (2 * c) fuel + 1

/-- Least `k` with `t ≤ c * 2 ^ k`, for `1 ≤ c ≤ t`: the quotient `c / t`
then lies in `[2 ^ (-k), 2 ^ (1 - k))`, so `-k` is its binary64 exponent. -/
def fpNormExp (c t : Nat) : Nat := fpNormExpAux t c t

/-- The IEEE-754 binary64 evaluation of `Math.round((c / t) * 100)` for
`0 ≤ c ≤ t` (`c`, `t` integers below `2 ^ 53`, hence exact doubles).
`c / t` is the quotient rounded to nearest (ties to even): significand
`m = rne (c * 2 ^ (k + 52)) t` in `[2 ^ 52, 2 ^ 53]`, value `m / 2 ^ (k + 52)`
with `k = fpNormExp c t`.  Multiplying by the exact double `100` gives
`100 * m / 2 ^ (k + 52)`, renormalised by `j ∈ {6, 7}` binary digits and
rounded to nearest even again: `m2 = rne (100 * m) (2 ^ j)`, value
`m2 / 2 ^ s2` with `s2 = k + 52 - j > 0`.  `Math.round` maps that exact
rational to the nearest integer, ties toward positive infinity:
`⌊m2 / 2 ^ s2 + 1 / 2⌋ = (2 * m2 + 2 ^ s2) / 2 ^ (s2 + 1)`.  This is where
the program deviates from exact half-up rounding of `100 * c / t`: e.g.
`(23 / 40) * 100` evaluates to the double just below `57.5`, so
`jsPct 23 40 = 57` while exact rounding gives `58`. -/
def jsPct (c t : Nat) : Nat :=
  if c = 0 then 0
  else
    let k := fpNormExp c t
    let m := rne (c * 2 ^ (k + 52)) t
    let p := 100 * m
    let j := if p < 2 ^ 59 then 6 else 7
    let m2 := rne p (2 ^ j)
    let s2 := k + 52 - j
    (2 * m2 + 2 ^ s2) / 2 ^ (s2 + 1)

/-- `calculateCompletionPercentage`: 0 for an empty list, otherwise the
binary64 evaluation `jsPct completedCount subtasks.length` of
`Math.round((completedCount / subtasks.length) * 100)`. -/
def calculateCompletionPercentage (subtasks : List Subtask) : Nat :=
  if subtasks.isEmpty then 0
  else
    let completedCount := (subtasks.filter (fun st => st.status == SubtaskStatus.completed)).length
    jsPct completedCount subtasks.length

/-- Exact half-up rounding of the rational `100 * c / t`.  This definition
follows the specification's words "round(100 × completed / total)" — not the
source — and exists only to be compared with the floating-point
`jsPct` the program computes; the two differ, e.g. at `c = 23`, `t = 40`. -/
def specRoundPct (c t : Nat) : Nat := (200 * c + t) / (2 * t)

/-- `validateStatusTransition`: the transition table of §4.3. -/
def validateStatusTransition (current next : SubtaskStatus) : Bool :=
  match current with
  | .pending => next == .in_progress || next == .cancelled
  | .in_progress => next == .completed || next == .pending || next == .cancelled
  | .completed => next == .pending
  | .cancelled => next == .pending

/-- `validateUniqueContent`: no sibling other than `excludeId` has the same
content modulo `toLowerCase` (`st.id !== excludeId` is always true when
`excludeId` is `undefined`). -/
def validateUniqueContent (subtasks : List Subtask) (newContent : String)
    (excludeId : Option String := none) : Bool :=
  !(subtasks.any (fun st =>
    lowerStr st.content == lowerStr newContent && some st.id != excludeId))

/-- `validateSubtaskData` restricted to the content checks; the status field
is an enum in the embedding, so the "Invalid status value" branch cannot
fire.  The `content.length < 1` branch is unreachable (the guard already
required a non-empty string) and is omitted. -/
def validateSubtaskData (content : String) : List String :=
  if content == "" then ["Subtask content is required"]
  else
    (if content.length > 500 then ["Subtask content cannot exceed 500 characters"] else [])
    ++ (if (trimStr content).length == 0 then ["Subtask content cannot be only whitespace"] else [])

/-! ## Entity lookup and in-place mutation

The TS methods locate an entity with `find`/`findIndex` and then mutate the
found object in place; here the lookup is mirrored by `find?` and the
mutation by rebuilding the document with `updateFirst` at the same (first
matching) position. -/

def findReq (s : TaskManagerFile) (requestId : String) : Option RequestEntry :=
  s.requests.find? (fun r => r.requestId == requestId)

/-- The nested loop of `manageSubtasks`: first request owning a task with
this id, first such task inside it. -/
def findTaskById (s : TaskManagerFile) (taskId : String) : Option Task :=
  (s.requests.find? (fun r => r.tasks.any (fun t => t.id == taskId))).bind
    (fun r => r.tasks.find? (fun t => t.id == taskId))

def mapReqById (s : TaskManagerFile) (requestId : String)
    (f : RequestEntry → RequestEntry) : TaskManagerFile :=
  { requests := updateFirst (fun r => r.requestId == requestId) f s.requests }

def mapTaskById (s : TaskManagerFile) (taskId : String) (f : Task → Task) :
    TaskManagerFile :=
  { requests := updateFirst (fun r => r.tasks.any (fun t => t.id == taskId))
      (fun r => { r with tasks := updateFirst (fun t => t.id == taskId) f r.tasks })
      s.requests }

/-- Every successful `manageSubtasks` branch ends by leaving the target task
with a new subtask list and `completionPercentage` recomputed from it. -/
def commitSubs (s : TaskManagerFile) (taskId : String) (newSubs : List Subtask) :
    TaskManagerFile :=
  mapTaskById s taskId (fun t =>
    { t with subtasks := some newSubs,
             completionPercentage := some (calculateCompletionPercentage newSubs) })

/-! ## Result shapes

Each operation returns a JS object with a `status` discriminator and
operation-specific payload fields; only the fields the specification talks
about are retained. -/

structure PlanResult where
  status : String
  requestId : String
  taskIds : List String
deriving DecidableEq, Repr

structure NextTaskResult where
  status : String
  taskId : Option String := none
deriving DecidableEq, Repr

structure MarkDoneResult where
  status : String
  completionPercentage : Option Nat := none
  remainingSubtasks : Option Nat := none
deriving DecidableEq, Repr

structure AddTasksResult where
  status : String
  newTaskIds : List String := []
deriving DecidableEq, Repr

structure MSResult where
  status : String
  code : Option String := none
  completionPercentage : Option Nat := none
  remainingSubtasks : Option Nat := none
  totalSubtasks : Option Nat := none
deriving DecidableEq, Repr

/-! ## Operations -/

/-- `requestPlanning`: advance the request counter, create the request with
per-request task numbers restarting at 1.  Note the task id template is
`` `req-${requestId}-task-${k}` `` with `requestId` already of the form
`req-<n>`. -/
def requestPlanning (s : TaskManagerFile) (originalRequest : String)
    (tasks : List (String × String)) (splitDetails : Option String := none) :
    PlanResult × TaskManagerFile :=
  let requestCounter := loadRequestCounter s + 1
  let requestId := "req-" ++ toString requestCounter
  let newTasks : List Task := tasks.enum.map (fun it =>
    { id := "req-" ++ requestId ++ "-task-" ++ toString (it.1 + 1),
      title := it.2.1, description := it.2.2,
      done := false, approved := false, completedDetails := "" })
  let s' : TaskManagerFile :=
    { requests := s.requests ++
        [{ requestId := requestId, originalRequest := originalRequest,
           splitDetails := jsOr splitDetails originalRequest,
           tasks := newTasks, completed := false }] }
  ({ status := "planned", requestId := requestId,
     taskIds := newTasks.map (fun t => t.id) }, s')

/-- `getNextTask`: first task whose `done` flag is false; read-only. -/
def getNextTask (s : TaskManagerFile) (requestId : String) : NextTaskResult :=
  match findReq s requestId with
  | none => { status := "error" }
  | some req =>
    if req.completed then { status := "already_completed" }
    else
      match req.tasks.find? (fun t => !t.done) with
      | some t => { status := "next_task", taskId := some t.id }
      | none =>
        if req.tasks.all (fun t => t.done) && !req.completed then
          { status := "all_tasks_done" }
        else { status := "no_next_task" }

/-- `markTaskDone`. -/
def markTaskDone (s : TaskManagerFile) (requestId taskId : String)
    (completedDetails : Option String := none) : MarkDoneResult × TaskManagerFile :=
  match findReq s requestId with
  | none => ({ status := "error" }, s)
  | some req =>
    match req.tasks.find? (fun t => t.id == taskId) with
    | none => ({ status := "error" }, s)
    | some task =>
      if task.done then ({ status := "already_done" }, s)
      else
        let subs := task.subtasks.getD []
        if !subs.isEmpty && !(subs.all (fun st => st.status == SubtaskStatus.completed)) then
          ({ status := "subtasks_incomplete",
             completionPercentage := some (task.completionPercentage.getD 0),
             remainingSubtasks :=
               some ((subs.filter (fun st => st.status != SubtaskStatus.completed)).length) }, s)
        else
          let f : Task → Task := fun t =>
            { t with done := true, completedDetails := completedDetails.getD "" }
          ({ status := "task_marked_done",
             completionPercentage := task.completionPercentage },
           mapReqById s requestId (fun r =>
             { r with tasks := updateFirst (fun t => t.id == taskId) f r.tasks }))

/-- `approveTaskCompletion`; the result is reduced to its status string. -/
def approveTaskCompletion (s : TaskManagerFile) (requestId taskId : String) :
    String × TaskManagerFile :=
  match findReq s requestId with
  | none => ("error", s)
  | some req =>
    match req.tasks.find? (fun t => t.id == taskId) with
    | none => ("error", s)
    | some task =>
      if !task.done then ("error", s)
      else if task.approved then ("already_approved", s)
      else
        let f : Task → Task := fun t => { t with approved := true }
        ("task_approved",
          mapReqById s requestId (fun r =>
            { r with tasks := updateFirst (fun t => t.id == taskId) f r.tasks }))

/-- `approveRequestCompletion`; note there is no check of `req.completed`. -/
def approveRequestCompletion (s : TaskManagerFile) (requestId : String) :
    String × TaskManagerFile :=
  match findReq s requestId with
  | none => ("error", s)
  | some req =>
    if !(req.tasks.all (fun t => t.done)) then ("error", s)
    else if !(req.tasks.all (fun t => t.done && t.approved)) then ("error", s)
    else ("request_approved_complete",
      mapReqById s requestId (fun r => { r with completed := true }))

/-- `addTasksToRequest`: task numbers continue from the maximum number
parsed out of the ids of the tasks currently in the request. -/
def addTasksToRequest (s : TaskManagerFile) (requestId : String)
    (tasks : List (String × String)) : AddTasksResult × TaskManagerFile :=
  match findReq s requestId with
  | none => ({ status := "error" }, s)
  | some req =>
    if req.completed then ({ status := "error" }, s)
    else
      let maxTaskNum :=
        if req.tasks.isEmpty then 0
        else maxNat (req.tasks.map (fun t => taskNumOf t.id))
      let newTasks : List Task := tasks.enum.map (fun it =>
        { id := "req-" ++ requestId ++ "-task-" ++ toString (maxTaskNum + 1 + it.1),
          title := it.2.1, description := it.2.2,
          done := false, approved := false, completedDetails := "" })
      ({ status := "tasks_added", newTaskIds := newTasks.map (fun t => t.id) },
       mapReqById s requestId (fun r => { r with tasks := r.tasks ++ newTasks }))

/-- `updateTask`: title/description are overwritten only when the supplied
value is truthy. -/
def updateTask (s : TaskManagerFile) (requestId taskId : String)
    (title description : Option String) : String × TaskManagerFile :=
  match findReq s requestId with
  | none => ("error", s)
  | some req =>
    match req.tasks.find? (fun t => t.id == taskId) with
    | none => ("error", s)
    | some task =>
      if task.done then ("error", s)
      else
        let f : Task → Task := fun t =>
          { t with title := jsOr title t.title,
                   description := jsOr description t.description }
        ("task_updated",
          mapReqById s requestId (fun r =>
            { r with tasks := updateFirst (fun t => t.id == taskId) f r.tasks }))

/-- `deleteTask`. -/
def deleteTask (s : TaskManagerFile) (requestId taskId : String) :
    String × TaskManagerFile :=
  match findReq s requestId with
  | none => ("error", s)
  | some req =>
    match req.tasks.find? (fun t => t.id == taskId) with
    | none => ("error", s)
    | some task =>
      if task.done then ("error", s)
      else ("task_deleted",
        mapReqById s requestId (fun r =>
          { r with tasks := removeFirst (fun t => t.id == taskId) r.tasks }))

/-- `clearAllTasks`. -/
def clearAllTasks (_s : TaskManagerFile) : String × TaskManagerFile :=
  ("all_tasks_cleared", { requests := [] })

/-! ## `manageSubtasks` -/

structure SubtaskInput where
  id : Option String := none
  content : String
  status : Option SubtaskStatus := none
deriving DecidableEq, Repr

structure SubtaskUpdates where
  content : Option String := none
  status : Option SubtaskStatus := none
deriving DecidableEq, Repr

inductive SubtaskAction
  | create
  | update
  | complete
  | delete
  | break_down
deriving DecidableEq, Repr

structure ManageSubtasksParams where
  taskId : String
  action : SubtaskAction
  subtasks : List SubtaskInput := []
  subtaskId : Option String := none
  updates : Option SubtaskUpdates := none
deriving DecidableEq, Repr

def msError (code : String) : MSResult := { status := "error", code := some code }

/-- The validation loop shared by the `create` and `break_down` actions:
walk the supplied subtask specifications, collecting error strings for the
invalid ones (and, when `checkDup` is set, for the ones whose content
case-insensitively duplicates an `existing` sibling), and building the
validated `Subtask` records for the rest.  `i` is the 0-based loop index
(used only in the error messages), `c` the running global task counter,
bumped exactly when `generateSubtaskId` is called, i.e. when the caller did
not supply a truthy id. -/
def processBatch (checkDup : Bool) (existing : List Subtask) (taskId now : String) :
    List SubtaskInput → Nat → Nat → List String × List Subtask × Nat
  | [], _i, c => ([], [], c)
  | sub :: rest, i, c =>
    let v := validateSubtaskData sub.content
    if !v.isEmpty then
      let out := processBatch checkDup existing taskId now rest (i + 1) c
      (("Subtask " ++ toString (i + 1) ++ ": " ++ String.intercalate ", " v) :: out.1,
       out.2.1, out.2.2)
    else if checkDup && !validateUniqueContent existing sub.content then
      let out := processBatch checkDup existing taskId now rest (i + 1) c
      (("Subtask " ++ toString (i + 1) ++ ": Duplicate content \"" ++ sub.content ++ "\"")
         :: out.1,
       out.2.1, out.2.2)
    else
      let idc : String × Nat :=
        match sub.id with
        | some sid => if sid == "" then (taskId ++ "-subtask-" ++ toString (c + 1), c + 1)
                      else (sid, c)
        | none => (taskId ++ "-subtask-" ++ toString (c + 1), c + 1)
      let out := processBatch checkDup existing taskId now rest (i + 1) idc.2
      (out.1,
       { id := idc.1, content := sub.content, status := sub.status.getD SubtaskStatus.pending,
         createdAt := now, completedAt := none } :: out.2.1,
       out.2.2)

/-- The duplicate check internal to a `break_down` batch:
`validatedSubtasks.filter((st, index) => findIndex(lower-equal) !== index)`
is non-empty. -/
def hasInternalDup (l : List Subtask) : Bool :=
  (l.enum.filter (fun ist =>
    l.findIdx? (fun other => lowerStr other.content == lowerStr ist.2.content)
      != some ist.1)).length > 0

/-- Applying `params.updates` to the found subtask (`update` action):
content when truthy, then status with the `completedAt` bookkeeping keyed on
the old status. -/
def applySubtaskUpdates (upd : SubtaskUpdates) (now : String) (st : Subtask) : Subtask :=
  let st₁ := if optTruthy upd.content then { st with content := upd.content.getD "" } else st
  match upd.status with
  | none => st₁
  | some ns =>
    let st₂ := { st₁ with status := ns }
    if ns == SubtaskStatus.completed && st.status != SubtaskStatus.completed then
      { st₂ with completedAt := some now }
    else if ns != SubtaskStatus.completed && st.status == SubtaskStatus.completed then
      { st₂ with completedAt := none }
    else st₂

def createAction (s : TaskManagerFile) (p : ManageSubtasksParams) (now : String)
    (targetTask : Task) : MSResult × TaskManagerFile :=
  if p.subtasks.isEmpty then (msError "MISSING_SUBTASKS", s)
  else
    let existing := targetTask.subtasks.getD []
    let out := processBatch true existing p.taskId now p.subtasks 0 (loadTaskCounter s)
    if !out.1.isEmpty then (msError "VALIDATION_FAILED", s)
    else
      let newSubs := existing ++ out.2.1
      ({ status := "subtasks_created",
         completionPercentage := some (calculateCompletionPercentage newSubs),
         totalSubtasks := some newSubs.length },
       commitSubs s p.taskId newSubs)

def updateAction (s : TaskManagerFile) (p : ManageSubtasksParams) (now : String)
    (targetTask : Task) : MSResult × TaskManagerFile :=
  if !optTruthy p.subtaskId then (msError "MISSING_SUBTASK_ID", s)
  else
    match p.updates with
    | none => (msError "MISSING_UPDATES", s)
    | some upd =>
      if !optTruthy upd.content && upd.status.isNone then (msError "MISSING_UPDATES", s)
      else
        match targetTask.subtasks with
        | none => (msError "NO_SUBTASKS", s)
        | some subs =>
          match subs.find? (fun st => some st.id == p.subtaskId) with
          | none => (msError "SUBTASK_NOT_FOUND", s)
          | some subtask =>
            let contentErrs : List String :=
              if optTruthy upd.content then
                let c := upd.content.getD ""
                let ve := validateSubtaskData c
                if !ve.isEmpty then ve
                else if !validateUniqueContent subs c p.subtaskId then
                  ["Content \"" ++ c ++ "\" already exists in another subtask"]
                else []
              else []
            let statusErrs : List String :=
              match upd.status with
              | some ns =>
                if !validateStatusTransition subtask.status ns then
                  ["Cannot change status"]
                else []
              | none => []
            if !(contentErrs ++ statusErrs).isEmpty then
              (msError "UPDATE_VALIDATION_FAILED", s)
            else
              let newSubs :=
                updateFirst (fun st => some st.id == p.subtaskId)
                  (applySubtaskUpdates upd now) subs
              ({ status := "subtask_updated",
                 completionPercentage := some (calculateCompletionPercentage newSubs) },
               commitSubs s p.taskId newSubs)

def completeAction (s : TaskManagerFile) (p : ManageSubtasksParams) (now : String)
    (targetTask : Task) : MSResult × TaskManagerFile :=
  if !optTruthy p.subtaskId then (msError "MISSING_SUBTASK_ID", s)
  else
    match targetTask.subtasks with
    | none => (msError "NO_SUBTASKS", s)
    | some subs =>
      match subs.find? (fun st => some st.id == p.subtaskId) with
      | none => (msError "SUBTASK_NOT_FOUND", s)
      | some subtask =>
        if subtask.status == SubtaskStatus.completed then (msError "ALREADY_COMPLETED", s)
        else if !validateStatusTransition subtask.status SubtaskStatus.completed then
          (msError "INVALID_TRANSITION", s)
        else
          let newSubs :=
            updateFirst (fun st => some st.id == p.subtaskId)
              (fun st => { st with status := SubtaskStatus.completed,
                                   completedAt := some now }) subs
          ({ status := "subtask_completed",
             completionPercentage := some (calculateCompletionPercentage newSubs),
             remainingSubtasks :=
               some ((newSubs.filter (fun st => st.status != SubtaskStatus.completed)).length) },
           commitSubs s p.taskId newSubs)

def deleteAction (s : TaskManagerFile) (p : ManageSubtasksParams)
    (targetTask : Task) : MSResult × TaskManagerFile :=
  if !optTruthy p.subtaskId then (msError "MISSING_SUBTASK_ID", s)
  else
    match targetTask.subtasks with
    | none => (msError "NO_SUBTASKS", s)
    | some subs =>
      match subs.find? (fun st => some st.id == p.subtaskId) with
      | none => (msError "SUBTASK_NOT_FOUND", s)
      | some subtask =>
        if subtask.status == SubtaskStatus.completed then
          (msError "CANNOT_DELETE_COMPLETED", s)
        else
          let newSubs := removeFirst (fun st => some st.id == p.subtaskId) subs
          ({ status := "subtask_deleted",
             completionPercentage := some (calculateCompletionPercentage newSubs),
             remainingSubtasks := some newSubs.length },
           commitSubs s p.taskId newSubs)

def breakDownAction (s : TaskManagerFile) (p : ManageSubtasksParams) (now : String) :
    MSResult × TaskManagerFile :=
  if p.subtasks.isEmpty then (msError "MISSING_SUBTASKS", s)
  else if p.subtasks.length > 50 then (msError "TOO_MANY_SUBTASKS", s)
  else
    let out := processBatch false [] p.taskId now p.subtasks 0 (loadTaskCounter s)
    if !out.1.isEmpty then (msError "VALIDATION_FAILED", s)
    else if hasInternalDup out.2.1 then (msError "DUPLICATE_CONTENT", s)
    else
      ({ status := "task_broken_down",
         completionPercentage := some (calculateCompletionPercentage out.2.1) },
       commitSubs s p.taskId out.2.1)

/-- `manageSubtasks`: find the target task anywhere in the document, then
dispatch on the action.  No branch consults `targetTask.done`. -/
def manageSubtasks (s : TaskManagerFile) (p : ManageSubtasksParams) (now : String) :
    MSResult × TaskManagerFile :=
  match findTaskById s p.taskId with
  | none => (msError "TASK_NOT_FOUND", s)
  | some targetTask =>
    match p.action with
    | .create => createAction s p now targetTask
    | .update => updateAction s p now targetTask
    | .complete => completeAction s p now targetTask
    | .delete => deleteAction s p targetTask
    | .break_down => breakDownAction s p now

/-- The `manage_subtasks` tool handler first runs the arguments through the
Zod schema, whose only value-changing step is `.trim()` on every subtask
content and on `updates.content`; the trimmed arguments reach the core. -/
def zodTrimParams (p : ManageSubtasksParams) : ManageSubtasksParams :=
  { p with
    subtasks := p.subtasks.map (fun si => { si with content := trimStr si.content }),
    updates := p.updates.map (fun u => { u with content := u.content.map trimStr }) }

def manageSubtasksTool (s : TaskManagerFile) (p : ManageSubtasksParams) (now : String) :
    MSResult × TaskManagerFile :=
  manageSubtasks s (zodTrimParams p) now

/-! ## The transition system

One `Step` per mutating operation, each with arbitrary (schema-valid)
arguments; read-only operations do not change the state.  `StepSafe` is the
same relation except that subtask mutations are only permitted on a target
task whose `done` flag is still false. -/

inductive Step : TaskManagerFile → TaskManagerFile → Prop where
  | plan (s : TaskManagerFile) (orig : String) (tasks : List (String × String))
      (split : Option String) : Step s (requestPlanning s orig tasks split).2
  | addTasks (s : TaskManagerFile) (rid : String) (tasks : List (String × String)) :
      Step s (addTasksToRequest s rid tasks).2
  | updTask (s : TaskManagerFile) (rid tid : String) (title descr : Option String) :
      Step s (updateTask s rid tid title descr).2
  | delTask (s : TaskManagerFile) (rid tid : String) : Step s (deleteTask s rid tid).2
  | markDone (s : TaskManagerFile) (rid tid : String) (det : Option String) :
      Step s (markTaskDone s rid tid det).2
  | approveTask (s : TaskManagerFile) (rid tid : String) :
      Step s (approveTaskCompletion s rid tid).2
  | approveReq (s : TaskManagerFile) (rid : String) :
      Step s (approveRequestCompletion s rid).2
  | clearAll (s : TaskManagerFile) : Step s (clearAllTasks s).2
  | manage (s : TaskManagerFile) (p : ManageSubtasksParams) (now : String) :
      Step s (manageSubtasks s p now).2

/-- States reachable from the empty dataset by any operation sequence. -/
def Reachable (s : TaskManagerFile) : Prop := Relation.ReflTransGen Step emptyFile s

inductive StepSafe : TaskManagerFile → TaskManagerFile → Prop where
  | plan (s : TaskManagerFile) (orig : String) (tasks : List (String × String))
      (split : Option String) : StepSafe s (requestPlanning s orig tasks split).2
  | addTasks (s : TaskManagerFile) (rid : String) (tasks : List (String × String)) :
      StepSafe s (addTasksToRequest s rid tasks).2
  | updTask (s : TaskManagerFile) (rid tid : String) (title descr : Option String) :
      StepSafe s (updateTask s rid tid title descr).2
  | delTask (s : TaskManagerFile) (rid tid : String) : StepSafe s (deleteTask s rid tid).2
  | markDone (s : TaskManagerFile) (rid tid : String) (det : Option String) :
      StepSafe s (markTaskDone s rid tid det).2
  | approveTask (s : TaskManagerFile) (rid tid : String) :
      StepSafe s (approveTaskCompletion s rid tid).2
  | approveReq (s : TaskManagerFile) (rid : String) :
      StepSafe s (approveRequestCompletion s rid).2
  | clearAll (s : TaskManagerFile) : StepSafe s (clearAllTasks s).2
  | manage (s : TaskManagerFile) (p : ManageSubtasksParams) (now : String)
      (h : ∀ t, findTaskById s p.taskId = some t → t.done = false) :
      StepSafe s (manageSubtasks s p now).2

/-- States reachable when subtask mutations are applied only to tasks that
are not yet done. -/
def ReachableSafe (s : TaskManagerFile) : Prop :=
  Relation.ReflTransGen StepSafe emptyFile s

/-! ## Invariants -/

/-- A task-level predicate holding of every task in the document. -/
def TaskPredAll (P : Task → Prop) (s : TaskManagerFile) : Prop :=
  ∀ r ∈ s.requests, ∀ t ∈ r.tasks, P t

/-- A done task with at least one subtask has all of them completed. -/
def DoneGuard (t : Task) : Prop :=
  t.done = true → t.subtasks.getD [] ≠ [] →
    ∀ st ∈ t.subtasks.getD [], st.status = SubtaskStatus.completed

instance (t : Task) : Decidable (DoneGuard t) := by
  unfold DoneGuard; infer_instance

def DoneSubtasksInv (s : TaskManagerFile) : Prop := TaskPredAll DoneGuard s

instance (s : TaskManagerFile) : Decidable (DoneSubtasksInv s) := by
  unfold DoneSubtasksInv TaskPredAll; infer_instance

/-- `completedAt` is present exactly on subtasks whose status is
`completed` (the claimed invariant). -/
def CompletedAtIff (t : Task) : Prop :=
  ∀ st ∈ t.subtasks.getD [],
    (st.completedAt.isSome = true ↔ st.status = SubtaskStatus.completed)

instance (t : Task) : Decidable (CompletedAtIff t) := by
  unfold CompletedAtIff; infer_instance

def CompletedAtIffInv (s : TaskManagerFile) : Prop := TaskPredAll CompletedAtIff s

instance (s : TaskManagerFile) : Decidable (CompletedAtIffInv s) := by
  unfold CompletedAtIffInv TaskPredAll; infer_instance

/-- The direction of the invariant the code does maintain: a subtask
carrying `completedAt` is currently `completed`. -/
def CompletedAtSoundT (t : Task) : Prop :=
  ∀ st ∈ t.subtasks.getD [],
    st.completedAt.isSome = true → st.status = SubtaskStatus.completed

instance (t : Task) : Decidable (CompletedAtSoundT t) := by
  unfold CompletedAtSoundT; infer_instance

def CompletedAtSoundInv (s : TaskManagerFile) : Prop := TaskPredAll CompletedAtSoundT s

instance (s : TaskManagerFile) : Decidable (CompletedAtSoundInv s) := by
  unfold CompletedAtSoundInv TaskPredAll; infer_instance

def c5Task : Task :=
  { id := "req-req-1-task-1", title := "t", description := "d",
    done := true, approved := true, completedDetails := "done" }

def c5Req : RequestEntry :=
  { requestId := "req-1", originalRequest := "o", splitDetails := "o",
    tasks := [c5Task], completed := false }

def c5Start : TaskManagerFile := { requests := [c5Req] }

def c5Once : TaskManagerFile := (approveRequestCompletion c5Start "req-1").2

def c6S1 : TaskManagerFile :=
  (requestPlanning emptyFile "o" [("t1", "d1"), ("t2", "d2")] none).2

def c6S2 : TaskManagerFile := (deleteTask c6S1 "req-1" "req-req-1-task-2").2

def allowedTransitions : List (SubtaskStatus × SubtaskStatus) :=
  [(SubtaskStatus.pending, SubtaskStatus.in_progress),
   (SubtaskStatus.pending, SubtaskStatus.cancelled),
   (SubtaskStatus.in_progress, SubtaskStatus.completed),
   (SubtaskStatus.in_progress, SubtaskStatus.pending),
   (SubtaskStatus.in_progress, SubtaskStatus.cancelled),
   (SubtaskStatus.completed, SubtaskStatus.pending),
   (SubtaskStatus.cancelled, SubtaskStatus.pending)]

/-- Arguments of a status-only `update` call. -/
def updParams (tid sid : String) (ns : SubtaskStatus) : ManageSubtasksParams :=
  { taskId := tid, action := SubtaskAction.update, subtaskId := some sid,
    updates := some { content := none, status := some ns } }

/-- Arguments of a `complete` call. -/
def comParams (tid sid : String) : ManageSubtasksParams :=
  { taskId := tid, action := SubtaskAction.complete, subtaskId := some sid }

/-- The status update a status-only `update` call applies. -/
def statusOnly (ns : SubtaskStatus) : SubtaskUpdates :=
  { content := none, status := some ns }

/-- Arguments of a `create` call. -/
def createParams (tid : String) (subs0 : List SubtaskInput) : ManageSubtasksParams :=
  { taskId := tid, action := SubtaskAction.create, subtasks := subs0 }

/-- Arguments of a content-only `update` call. -/
def updContentParams (tid sid c : String) : ManageSubtasksParams :=
  { taskId := tid, action := SubtaskAction.update, subtaskId := some sid,
    updates := some { content := some c, status := none } }

def c9Sub : Subtask :=
  { id := "sub-1", content := "Fix bug", status := SubtaskStatus.pending,
    createdAt := "T0" }

def c9Task : Task :=
  { id := "req-req-1-task-1", title := "t", description := "d", done := false,
    approved := false, completedDetails := "", subtasks := some [c9Sub],
    completionPercentage := some 0 }

def c9Req : RequestEntry :=
  { requestId := "req-1", originalRequest := "o", splitDetails := "o",
    tasks := [c9Task], completed := false }

def c9State : TaskManagerFile := { requests := [c9Req] }

/-- Forgetting the approval flag, used to state that task selection is
independent of it. -/
def eraseApproved (t : Task) : Task := { t with approved := false }

/-! ## Concrete states and arguments used in the counterexamples and
witnesses below -/

def c2State1 : TaskManagerFile :=
  (requestPlanning emptyFile "build the app" [("t1", "d1")] none).2

def c2State2 : TaskManagerFile :=
  (markTaskDone c2State1 "req-1" "req-req-1-task-1" none).2

def c2Params : ManageSubtasksParams :=
  { taskId := "req-req-1-task-1", action := SubtaskAction.create,
    subtasks := [{ content := "write code" }] }

def c2Bad : TaskManagerFile :=
  (manageSubtasks c2State2 c2Params "2024-01-01T00:00:00.000Z").2

def c8Params : ManageSubtasksParams :=
  { taskId := "req-req-1-task-1", action := SubtaskAction.create,
    subtasks := [{ content := "already finished",
                   status := some SubtaskStatus.completed }] }

def c8Bad : TaskManagerFile :=
  (manageSubtasks c2State1 c8Params "2024-01-01T00:00:00.000Z").2

def c3Plan : TaskManagerFile :=
  (requestPlanning emptyFile "big build" [("t1", "d1")] none).2

/-- Forty subtask specifications: 22 created already `completed`, one
`in_progress`, 17 `pending`. -/
def c3Inputs : List SubtaskInput :=
  ((List.range 22).map (fun i =>
    ({ content := "done step " ++ toString (i + 1),
       status := some SubtaskStatus.completed } : SubtaskInput))) ++
  [({ content := "active step", status := some SubtaskStatus.in_progress } : SubtaskInput)] ++
  ((List.range 17).map (fun i =>
    ({ content := "open step " ++ toString (i + 1) } : SubtaskInput)))

def c3Create : ManageSubtasksParams := createParams "req-req-1-task-1" c3Inputs

def c3State : TaskManagerFile := (manageSubtasks c3Plan c3Create "T1").2

def c3Complete : ManageSubtasksParams :=
  comParams "req-req-1-task-1" "req-req-1-task-1-subtask-23"

def wSub : Subtask :=
  { id := "req-req-1-task-1-subtask-1", content := "step one",
    status := SubtaskStatus.pending, createdAt := "T0" }

def wTask : Task :=
  { id := "req-req-1-task-1", title := "t", description := "d", done := false,
    approved := false, completedDetails := "", subtasks := some [wSub],
    completionPercentage := some 0 }

def wReq : RequestEntry :=
  { requestId := "req-1", originalRequest := "o", splitDetails := "o",
    tasks := [wTask], completed := false }

def wState : TaskManagerFile := { requests := [wReq] }

def c3wParams : ManageSubtasksParams :=
  { taskId := "req-req-1-task-1", action := SubtaskAction.create,
    subtasks := [{ content := "extra step" }] }

def c10TaskDone : Task :=
  { id := "req-req-1-task-1", title := "t1", description := "d1", done := true,
    approved := false, completedDetails := "done" }

def c10TaskOpen : Task :=
  { id := "req-req-1-task-2", title := "t2", description := "d2", done := false,
    approved := false, completedDetails := "" }

def c10Req : RequestEntry :=
  { requestId := "req-1", originalRequest := "o", splitDetails := "o",
    tasks := [c10TaskDone, c10TaskOpen], completed := false }

def c10State : TaskManagerFile := { requests := [c10Req] }


/-! ## Lemmas about the list primitives -/

theorem mem_updateFirst {α : Type} {p : α → Bool} {f : α → α} {l : List α} {x : α}
    (hx : x ∈ updateFirst p f l) :
    x ∈ l ∨ ∃ y, l.find? p = some y ∧ x = f y := by
  induction l with
  | nil => cases hx
  | cons a t ih =>
    by_cases hpa : p a = true
    · rw [updateFirst, if_pos hpa] at hx
      rcases List.mem_cons.mp hx with hxa | hxt
      · exact Or.inr ⟨a, by simp [List.find?_cons_of_pos _ hpa], hxa⟩
      · exact Or.inl (List.mem_cons_of_mem _ hxt)
    · rw [updateFirst, if_neg hpa] at hx
      rcases List.mem_cons.mp hx with hxa | hxt
      · exact Or.inl (hxa ▸ List.mem_cons_self _ _)
      · rcases ih hxt with hmem | ⟨y, hy, hfy⟩
        · exact Or.inl (List.mem_cons_of_mem _ hmem)
        · refine Or.inr ⟨y, ?_, hfy⟩
          rw [List.find?_cons_of_neg _ (by simpa using hpa), hy]

theorem mem_removeFirst {α : Type} {p : α → Bool} {l : List α} {x : α}
    (hx : x ∈ removeFirst p l) : x ∈ l := by
  induction l with
  | nil => cases hx
  | cons a t ih =>
    by_cases hpa : p a = true
    · rw [removeFirst, if_pos hpa] at hx
      exact List.mem_cons_of_mem _ hx
    · rw [removeFirst, if_neg hpa] at hx
      rcases List.mem_cons.mp hx with hxa | hxt
      · exact hxa ▸ List.mem_cons_self _ _
      · exact List.mem_cons_of_mem _ (ih hxt)

theorem find?_updateFirst {α : Type} {p : α → Bool} {f : α → α} (l : List α)
    (hpres : ∀ a, p a = true → p (f a) = true) :
    (updateFirst p f l).find? p = (l.find? p).map f := by
  induction l with
  | nil => rfl
  | cons a t ih =>
    by_cases hpa : p a = true
    · rw [updateFirst, if_pos hpa, List.find?_cons_of_pos _ (hpres a hpa),
        List.find?_cons_of_pos _ hpa, Option.map_some']
    · rw [updateFirst, if_neg hpa, List.find?_cons_of_neg _ (by simpa using hpa),
        List.find?_cons_of_neg _ (by simpa using hpa), ih]

theorem any_updateFirst {α : Type} {p : α → Bool} {f : α → α} (l : List α)
    (hpres : ∀ a, p a = true → p (f a) = true) :
    (updateFirst p f l).any p = l.any p := by
  induction l with
  | nil => rfl
  | cons a t ih =>
    by_cases hpa : p a = true
    · rw [updateFirst, if_pos hpa]
      simp [List.any_cons, hpa, hpres a hpa]
    · rw [updateFirst, if_neg hpa]
      simp only [List.any_cons, ih]

theorem updateFirst_eq_self {α : Type} {p : α → Bool} {f : α → α} (l : List α)
    (h : ∀ y, l.find? p = some y → f y = y) : updateFirst p f l = l := by
  induction l with
  | nil => rfl
  | cons a t ih =>
    by_cases hpa : p a = true
    · rw [updateFirst, if_pos hpa, h a (by simp [List.find?_cons_of_pos _ hpa])]
    · rw [updateFirst, if_neg hpa,
        ih (fun y hy => h y (by rw [List.find?_cons_of_neg _ (by simpa using hpa)]; exact hy))]

theorem le_maxNat {l : List Nat} {x : Nat} (hx : x ∈ l) : x ≤ maxNat l := by
  induction l with
  | nil => cases hx
  | cons a t ih =>
    rcases List.mem_cons.mp hx with rfl | hxt
    · exact le_max_left _ _
    · exact le_trans (ih hxt) (le_max_right _ _)

/-! ## Lemmas about lookup after mutation -/

theorem findReq_mapReqById (s : TaskManagerFile) (rid : String)
    (f : RequestEntry → RequestEntry) (hid : ∀ r, (f r).requestId = r.requestId) :
    findReq (mapReqById s rid f) rid = (findReq s rid).map f := by
  unfold findReq mapReqById
  exact find?_updateFirst s.requests (fun r hr => by rw [hid]; exact hr)

theorem findTaskById_mapTaskById (s : TaskManagerFile) (tid : String) (f : Task → Task)
    (hid : ∀ t, (f t).id = t.id) :
    findTaskById (mapTaskById s tid f) tid = (findTaskById s tid).map f := by
  have hpt : ∀ t : Task, (t.id == tid) = true → ((f t).id == tid) = true := by
    intro t ht; rw [hid]; exact ht
  unfold findTaskById mapTaskById
  rw [find?_updateFirst s.requests (fun r hr => by
    show ((updateFirst (fun t => t.id == tid) f r.tasks).any fun t => t.id == tid) = true
    rw [any_updateFirst r.tasks hpt]; exact hr)]
  cases h : s.requests.find? (fun r => r.tasks.any (fun t => t.id == tid)) with
  | none => rfl
  | some r =>
    simp only [Option.map_some', Option.bind_some]
    exact find?_updateFirst r.tasks hpt

theorem findTaskById_commitSubs (s : TaskManagerFile) (tid : String) (ns : List Subtask) :
    findTaskById (commitSubs s tid ns) tid =
      (findTaskById s tid).map (fun t =>
        { t with subtasks := some ns,
                 completionPercentage := some (calculateCompletionPercentage ns) }) := by
  unfold commitSubs
  exact findTaskById_mapTaskById s tid _ (fun t => rfl)

/-! ## Preservation machinery for task-level invariants -/

theorem taskPredAll_updateFirst {P : Task → Prop} {s : TaskManagerFile}
    {q : RequestEntry → Bool} {g : RequestEntry → RequestEntry}
    (hP : TaskPredAll P s)
    (h : ∀ r, s.requests.find? q = some r → ∀ t ∈ (g r).tasks, P t) :
    TaskPredAll P { requests := updateFirst q g s.requests } := by
  intro r' hr' t ht
  rcases mem_updateFirst hr' with hmem | ⟨y, hy, rfl⟩
  · exact hP r' hmem t ht
  · exact h y hy t ht

theorem taskPred_tasks_updateFirst {P : Task → Prop} {l : List Task}
    {pt : Task → Bool} {f : Task → Task}
    (hP : ∀ t ∈ l, P t) (h : ∀ z, l.find? pt = some z → P (f z)) :
    ∀ t ∈ updateFirst pt f l, P t := by
  intro t ht
  rcases mem_updateFirst ht with hmem | ⟨z, hz, rfl⟩
  · exact hP t hmem
  · exact h z hz

theorem taskPredAll_append {P : Task → Prop} {s : TaskManagerFile} {r : RequestEntry}
    (hP : TaskPredAll P s) (hr : ∀ t ∈ r.tasks, P t) :
    TaskPredAll P { requests := s.requests ++ [r] } := by
  intro r' hr' t ht
  rcases List.mem_append.mp hr' with hmem | hmem
  · exact hP r' hmem t ht
  · rcases List.mem_singleton.mp hmem with rfl
    exact hr t ht

theorem findTaskById_mem {s : TaskManagerFile} {tid : String} {t : Task}
    (h : findTaskById s tid = some t) : ∃ r ∈ s.requests, t ∈ r.tasks := by
  unfold findTaskById at h
  cases hr : s.requests.find? (fun r => r.tasks.any (fun t => t.id == tid)) with
  | none => rw [hr] at h; cases h
  | some r =>
    rw [hr] at h
    exact ⟨r, List.mem_of_find?_eq_some hr,
      List.mem_of_find?_eq_some (by simpa using h)⟩

theorem taskPredAll_commitSubs {P : Task → Prop} {s : TaskManagerFile} {tid : String}
    {ns : List Subtask} (hP : TaskPredAll P s)
    (h : ∀ t, findTaskById s tid = some t →
      P { t with subtasks := some ns,
                 completionPercentage := some (calculateCompletionPercentage ns) }) :
    TaskPredAll P (commitSubs s tid ns) := by
  unfold commitSubs mapTaskById
  apply taskPredAll_updateFirst hP
  intro r hr t ht
  have hmemr : r ∈ s.requests := List.mem_of_find?_eq_some hr
  refine taskPred_tasks_updateFirst (fun t' ht' => hP r hmemr t' ht') ?_ t ht
  intro z hz
  apply h
  unfold findTaskById
  rw [hr]
  simpa using hz

/-! ## State characterization of `manageSubtasks` -/

theorem createAction_state (s : TaskManagerFile) (p : ManageSubtasksParams) (now : String) (t : Task) :
    (createAction s p now t).2 = s ∨
      ∃ ns, (createAction s p now t).2 = commitSubs s p.taskId ns := by
  unfold createAction
  repeat' split
  all_goals dsimp only
  all_goals repeat' split
  all_goals first | exact Or.inl rfl | exact Or.inr ⟨_, rfl⟩

theorem updateAction_state (s : TaskManagerFile) (p : ManageSubtasksParams) (now : String) (t : Task) :
    (updateAction s p now t).2 = s ∨
      ∃ ns, (updateAction s p now t).2 = commitSubs s p.taskId ns := by
  unfold updateAction
  repeat' split
  all_goals dsimp only
  all_goals repeat' split
  all_goals first | exact Or.inl rfl | exact Or.inr ⟨_, rfl⟩

theorem completeAction_state (s : TaskManagerFile) (p : ManageSubtasksParams) (now : String) (t : Task) :
    (completeAction s p now t).2 = s ∨
      ∃ ns, (completeAction s p now t).2 = commitSubs s p.taskId ns := by
  unfold completeAction
  repeat' split
  all_goals dsimp only
  all_goals first | exact Or.inl rfl | exact Or.inr ⟨_, rfl⟩

theorem deleteAction_state (s : TaskManagerFile) (p : ManageSubtasksParams) (t : Task) :
    (deleteAction s p t).2 = s ∨
      ∃ ns, (deleteAction s p t).2 = commitSubs s p.taskId ns := by
  unfold deleteAction
  repeat' split
  all_goals dsimp only
  all_goals first | exact Or.inl rfl | exact Or.inr ⟨_, rfl⟩

theorem breakDownAction_state (s : TaskManagerFile) (p : ManageSubtasksParams) (now : String) :
    (breakDownAction s p now).2 = s ∨
      ∃ ns, (breakDownAction s p now).2 = commitSubs s p.taskId ns := by
  unfold breakDownAction
  repeat' split
  all_goals dsimp only
  all_goals repeat' split
  all_goals first | exact Or.inl rfl | exact Or.inr ⟨_, rfl⟩

theorem manageSubtasks_state (s : TaskManagerFile) (p : ManageSubtasksParams) (now : String) :
    (manageSubtasks s p now).2 = s ∨
      ∃ ns, (manageSubtasks s p now).2 = commitSubs s p.taskId ns := by
  unfold manageSubtasks
  cases hf : findTaskById s p.taskId with
  | none => exact Or.inl rfl
  | some t =>
    cases hact : p.action
    · exact createAction_state s p now t
    · exact updateAction_state s p now t
    · exact completeAction_state s p now t
    · exact deleteAction_state s p t
    · exact breakDownAction_state s p now

/-! ## Preservation of task-level invariants by each operation -/

theorem doneGuard_of_not_done {t : Task} (h : t.done = false) : DoneGuard t := by
  intro hd
  rw [h] at hd
  cases hd

theorem completedAtSoundT_of_none {t : Task} (h : t.subtasks = none) :
    CompletedAtSoundT t := by
  intro st hst
  rw [h] at hst
  cases hst

theorem taskPredAll_requestPlanning {P : Task → Prop} (s : TaskManagerFile)
    (orig : String) (tasks : List (String × String)) (split : Option String)
    (hP : TaskPredAll P s)
    (hnew : ∀ id title descr : String,
      P { id := id, title := title, description := descr,
          done := false, approved := false, completedDetails := "" }) :
    TaskPredAll P (requestPlanning s orig tasks split).2 := by
  unfold requestPlanning
  apply taskPredAll_append hP
  intro t ht
  rcases List.mem_map.mp ht with ⟨it, _, rfl⟩
  exact hnew _ _ _

theorem taskPredAll_addTasksToRequest {P : Task → Prop} (s : TaskManagerFile)
    (rid : String) (tasks : List (String × String)) (hP : TaskPredAll P s)
    (hnew : ∀ id title descr : String,
      P { id := id, title := title, description := descr,
          done := false, approved := false, completedDetails := "" }) :
    TaskPredAll P (addTasksToRequest s rid tasks).2 := by
  unfold addTasksToRequest
  cases hfr : findReq s rid with
  | none => exact hP
  | some req =>
    dsimp only
    by_cases hc : req.completed = true
    · rw [if_pos hc]; exact hP
    · rw [if_neg hc]
      unfold mapReqById
      apply taskPredAll_updateFirst hP
      intro r hr t ht
      rcases List.mem_append.mp ht with hmem | hmem
      · exact hP r (List.mem_of_find?_eq_some hr) t hmem
      · rcases List.mem_map.mp hmem with ⟨it, _, rfl⟩
        exact hnew _ _ _

theorem taskPredAll_updateTask {P : Task → Prop} (s : TaskManagerFile)
    (rid tid : String) (title descr : Option String) (hP : TaskPredAll P s)
    (hstable : ∀ (t : Task) (a b : String),
      P t → P { t with title := a, description := b }) :
    TaskPredAll P (updateTask s rid tid title descr).2 := by
  unfold updateTask
  cases hfr : findReq s rid with
  | none => exact hP
  | some req =>
    dsimp only
    cases hft : req.tasks.find? (fun t => t.id == tid) with
    | none => exact hP
    | some task =>
      dsimp only
      by_cases hd : task.done = true
      · rw [if_pos hd]; exact hP
      · rw [if_neg hd]
        unfold mapReqById
        apply taskPredAll_updateFirst hP
        intro r hr t ht
        have hrt : ∀ t' ∈ r.tasks, P t' := hP r (List.mem_of_find?_eq_some hr)
        refine taskPred_tasks_updateFirst hrt ?_ t ht
        intro z hz
        exact hstable z _ _ (hrt z (List.mem_of_find?_eq_some hz))

theorem taskPredAll_deleteTask {P : Task → Prop} (s : TaskManagerFile)
    (rid tid : String) (hP : TaskPredAll P s) :
    TaskPredAll P (deleteTask s rid tid).2 := by
  unfold deleteTask
  cases hfr : findReq s rid with
  | none => exact hP
  | some req =>
    dsimp only
    cases hft : req.tasks.find? (fun t => t.id == tid) with
    | none => exact hP
    | some task =>
      dsimp only
      by_cases hd : task.done = true
      · rw [if_pos hd]; exact hP
      · rw [if_neg hd]
        unfold mapReqById
        apply taskPredAll_updateFirst hP
        intro r hr t ht
        exact hP r (List.mem_of_find?_eq_some hr) t (mem_removeFirst ht)

theorem taskPredAll_markTaskDone_stable {P : Task → Prop} (s : TaskManagerFile)
    (rid tid : String) (det : Option String) (hP : TaskPredAll P s)
    (hstable : ∀ (t : Task) (d : String),
      P t → P { t with done := true, completedDetails := d }) :
    TaskPredAll P (markTaskDone s rid tid det).2 := by
  unfold markTaskDone
  cases hfr : findReq s rid with
  | none => exact hP
  | some req =>
    dsimp only
    cases hft : req.tasks.find? (fun t => t.id == tid) with
    | none => exact hP
    | some task =>
      dsimp only
      by_cases hd : task.done = true
      · rw [if_pos hd]; exact hP
      · rw [if_neg hd]
        split
        · exact hP
        · unfold mapReqById
          apply taskPredAll_updateFirst hP
          intro r hr t ht
          have hrt : ∀ t' ∈ r.tasks, P t' := hP r (List.mem_of_find?_eq_some hr)
          refine taskPred_tasks_updateFirst hrt ?_ t ht
          intro z hz
          exact hstable z _ (hrt z (List.mem_of_find?_eq_some hz))

theorem doneSubtasksInv_markTaskDone (s : TaskManagerFile) (rid tid : String)
    (det : Option String) (hP : DoneSubtasksInv s) :
    DoneSubtasksInv (markTaskDone s rid tid det).2 := by
  unfold markTaskDone
  cases hfr : findReq s rid with
  | none => exact hP
  | some req =>
    dsimp only
    cases hft : req.tasks.find? (fun t => t.id == tid) with
    | none => exact hP
    | some task =>
      dsimp only
      by_cases hd : task.done = true
      · rw [if_pos hd]; exact hP
      · rw [if_neg hd]
        split
        · exact hP
        · rename_i hguard
          unfold mapReqById
          apply taskPredAll_updateFirst hP
          intro r hr t ht
          have hrt : ∀ t' ∈ r.tasks, DoneGuard t' := hP r (List.mem_of_find?_eq_some hr)
          refine taskPred_tasks_updateFirst hrt ?_ t ht
          intro z hz
          have hr2 : r = req := by
            have h1 : findReq s rid = some r := hr
            rw [hfr] at h1
            exact (Option.some.inj h1).symm
          have hz2 : z = task := by
            rw [hr2, hft] at hz
            exact (Option.some.inj hz).symm
          subst hz2
          intro _ hne st hst
          by_cases hemp : (z.subtasks.getD []).isEmpty = true
          · exact absurd (List.isEmpty_iff.mp hemp) hne
          · have hall :
                ((z.subtasks.getD []).all fun st => st.status == SubtaskStatus.completed) = true := by
              by_contra hno
              rw [Bool.not_eq_true] at hemp hno
              exact hguard (by rw [hemp, hno]; rfl)
            have := List.all_eq_true.mp hall st hst
            simpa using this

theorem taskPredAll_approveTaskCompletion {P : Task → Prop} (s : TaskManagerFile)
    (rid tid : String) (hP : TaskPredAll P s)
    (hstable : ∀ t : Task, P t → P { t with approved := true }) :
    TaskPredAll P (approveTaskCompletion s rid tid).2 := by
  unfold approveTaskCompletion
  cases hfr : findReq s rid with
  | none => exact hP
  | some req =>
    dsimp only
    cases hft : req.tasks.find? (fun t => t.id == tid) with
    | none => exact hP
    | some task =>
      dsimp only
      by_cases hd : (!task.done) = true
      · rw [if_pos hd]; exact hP
      · rw [if_neg hd]
        by_cases ha : task.approved = true
        · rw [if_pos ha]; exact hP
        · rw [if_neg ha]
          unfold mapReqById
          apply taskPredAll_updateFirst hP
          intro r hr t ht
          have hrt : ∀ t' ∈ r.tasks, P t' := hP r (List.mem_of_find?_eq_some hr)
          refine taskPred_tasks_updateFirst hrt ?_ t ht
          intro z hz
          exact hstable z (hrt z (List.mem_of_find?_eq_some hz))

theorem taskPredAll_approveRequestCompletion {P : Task → Prop} (s : TaskManagerFile)
    (rid : String) (hP : TaskPredAll P s) :
    TaskPredAll P (approveRequestCompletion s rid).2 := by
  unfold approveRequestCompletion
  cases hfr : findReq s rid with
  | none => exact hP
  | some req =>
    dsimp only
    by_cases h1 : (!req.tasks.all fun t => t.done) = true
    · rw [if_pos h1]; exact hP
    · rw [if_neg h1]
      by_cases h2 : (!req.tasks.all fun t => t.done && t.approved) = true
      · rw [if_pos h2]; exact hP
      · rw [if_neg h2]
        unfold mapReqById
        apply taskPredAll_updateFirst hP
        intro r hr t ht
        exact hP r (List.mem_of_find?_eq_some hr) t ht

theorem taskPredAll_clearAllTasks {P : Task → Prop} (s : TaskManagerFile) :
    TaskPredAll P (clearAllTasks s).2 := by
  intro r hr
  cases hr

/-! ## `manageSubtasks` and the invariants -/

theorem processBatch_fresh (cd : Bool) (ex : List Subtask) (tid now : String) :
    ∀ (subs : List SubtaskInput) (i c : Nat),
      ∀ st ∈ (processBatch cd ex tid now subs i c).2.1,
        st.completedAt = none ∧ st.createdAt = now := by
  intro subs
  induction subs with
  | nil => intro i c st hst; cases hst
  | cons sub rest ih =>
    intro i c st hst
    rw [processBatch] at hst
    by_cases h1 : (!(validateSubtaskData sub.content).isEmpty) = true
    · rw [if_pos h1] at hst
      exact ih _ _ st hst
    · rw [if_neg h1] at hst
      by_cases h2 : (cd && !validateUniqueContent ex sub.content) = true
      · rw [if_pos h2] at hst
        exact ih _ _ st hst
      · rw [if_neg h2] at hst
        dsimp only at hst
        rcases List.mem_cons.mp hst with rfl | hmem
        · exact ⟨rfl, rfl⟩
        · exact ih _ _ st hmem

/-- Content-only and status updates keep the soundness direction of the
`completedAt` bookkeeping. -/
theorem applySubtaskUpdates_sound (upd : SubtaskUpdates) (now : String) (z : Subtask)
    (hz : z.completedAt.isSome = true → z.status = SubtaskStatus.completed) :
    (applySubtaskUpdates upd now z).completedAt.isSome = true →
      (applySubtaskUpdates upd now z).status = SubtaskStatus.completed := by
  unfold applySubtaskUpdates
  cases hst : upd.status with
  | none =>
    by_cases hc : optTruthy upd.content = true
    · rw [if_pos hc]; exact hz
    · rw [if_neg hc]; exact hz
  | some ns =>
    dsimp only
    by_cases h1 : (ns == SubtaskStatus.completed && z.status != SubtaskStatus.completed) = true
    · rw [if_pos h1]
      intro _
      rw [Bool.and_eq_true] at h1
      show ns = SubtaskStatus.completed
      exact eq_of_beq h1.1
    · rw [if_neg h1]
      by_cases h2 : (ns != SubtaskStatus.completed && z.status == SubtaskStatus.completed) = true
      · rw [if_pos h2]
        intro habs
        exact nomatch habs
      · rw [if_neg h2]
        by_cases hc : optTruthy upd.content = true
        · rw [if_pos hc]
          intro hsome
          have hzc : z.status = SubtaskStatus.completed := hz hsome
          show ns = SubtaskStatus.completed
          by_contra hq
          exact h2 (by simp [hq, hzc])
        · rw [if_neg hc]
          intro hsome
          have hzc : z.status = SubtaskStatus.completed := hz hsome
          show ns = SubtaskStatus.completed
          by_contra hq
          exact h2 (by simp [hq, hzc])

theorem completedAtSound_commit_of_mem (s : TaskManagerFile) (tid : String)
    (t : Task) (ns : List Subtask) (_hf : findTaskById s tid = some t)
    (hP : CompletedAtSoundInv s)
    (hns : ∀ st ∈ ns,
      st.completedAt.isSome = true → st.status = SubtaskStatus.completed) :
    CompletedAtSoundInv (commitSubs s tid ns) := by
  apply taskPredAll_commitSubs hP
  intro t' hft'
  intro st hst
  exact hns st hst

theorem completedAtSound_commit_update (s : TaskManagerFile) (tid : String)
    (sid : Option String) (upd : SubtaskUpdates) (now : String) (t : Task)
    (subs : List Subtask) (hf : findTaskById s tid = some t)
    (hsubs : t.subtasks = some subs) (hP : CompletedAtSoundInv s) :
    CompletedAtSoundInv (commitSubs s tid
      (updateFirst (fun st => some st.id == sid) (applySubtaskUpdates upd now) subs)) := by
  obtain ⟨r0, hr0, ht0⟩ := findTaskById_mem hf
  have hPt : CompletedAtSoundT t := hP r0 hr0 t ht0
  have hgetD : t.subtasks.getD [] = subs := by rw [hsubs]; rfl
  apply completedAtSound_commit_of_mem s tid t _ hf hP
  intro st hst
  rcases mem_updateFirst hst with hmem | ⟨z', hz', rfl⟩
  · exact hPt st (by rw [hgetD]; exact hmem)
  · exact applySubtaskUpdates_sound _ _ z'
      (hPt z' (by rw [hgetD]; exact List.mem_of_find?_eq_some hz'))

theorem completedAtSound_commit_complete (s : TaskManagerFile) (tid : String)
    (sid : Option String) (now : String) (t : Task) (subs : List Subtask)
    (hf : findTaskById s tid = some t) (hsubs : t.subtasks = some subs)
    (hP : CompletedAtSoundInv s) :
    CompletedAtSoundInv (commitSubs s tid
      (updateFirst (fun st => some st.id == sid)
        (fun st => { st with status := SubtaskStatus.completed, completedAt := some now })
        subs)) := by
  obtain ⟨r0, hr0, ht0⟩ := findTaskById_mem hf
  have hPt : CompletedAtSoundT t := hP r0 hr0 t ht0
  have hgetD : t.subtasks.getD [] = subs := by rw [hsubs]; rfl
  apply completedAtSound_commit_of_mem s tid t _ hf hP
  intro st hst
  rcases mem_updateFirst hst with hmem | ⟨z', hz', rfl⟩
  · exact hPt st (by rw [hgetD]; exact hmem)
  · exact fun _ => rfl

theorem completedAtSound_commit_delete (s : TaskManagerFile) (tid : String)
    (sid : Option String) (t : Task) (subs : List Subtask)
    (hf : findTaskById s tid = some t) (hsubs : t.subtasks = some subs)
    (hP : CompletedAtSoundInv s) :
    CompletedAtSoundInv (commitSubs s tid
      (removeFirst (fun st => some st.id == sid) subs)) := by
  obtain ⟨r0, hr0, ht0⟩ := findTaskById_mem hf
  have hPt : CompletedAtSoundT t := hP r0 hr0 t ht0
  have hgetD : t.subtasks.getD [] = subs := by rw [hsubs]; rfl
  apply completedAtSound_commit_of_mem s tid t _ hf hP
  intro st hst
  exact hPt st (by rw [hgetD]; exact mem_removeFirst hst)

theorem createAction_sound (s : TaskManagerFile) (p : ManageSubtasksParams) (now : String)
    (t : Task) (hf : findTaskById s p.taskId = some t) (hP : CompletedAtSoundInv s) :
    CompletedAtSoundInv (createAction s p now t).2 := by
  obtain ⟨r0, hr0, ht0⟩ := findTaskById_mem hf
  have hPt : CompletedAtSoundT t := hP r0 hr0 t ht0
  unfold createAction
  repeat' split
  all_goals dsimp only
  all_goals repeat' split
  all_goals try exact hP
  apply completedAtSound_commit_of_mem s p.taskId t _ hf hP
  intro st hst
  rcases List.mem_append.mp hst with hmem | hmem
  · exact hPt st hmem
  · intro hsomeAt
    rw [(processBatch_fresh true _ _ _ _ _ _ st hmem).1] at hsomeAt
    exact nomatch hsomeAt

theorem updateAction_sound (s : TaskManagerFile) (p : ManageSubtasksParams) (now : String)
    (t : Task) (hf : findTaskById s p.taskId = some t) (hP : CompletedAtSoundInv s) :
    CompletedAtSoundInv (updateAction s p now t).2 := by
  unfold updateAction
  repeat' split
  all_goals dsimp only
  all_goals repeat' split
  all_goals try exact hP
  all_goals refine completedAtSound_commit_update s p.taskId p.subtaskId _ now t _ hf ?_ hP
  all_goals assumption

theorem completeAction_sound (s : TaskManagerFile) (p : ManageSubtasksParams) (now : String)
    (t : Task) (hf : findTaskById s p.taskId = some t) (hP : CompletedAtSoundInv s) :
    CompletedAtSoundInv (completeAction s p now t).2 := by
  unfold completeAction
  repeat' split
  all_goals dsimp only
  all_goals try exact hP
  all_goals refine completedAtSound_commit_complete s p.taskId p.subtaskId now t _ hf ?_ hP
  all_goals assumption

theorem deleteAction_sound (s : TaskManagerFile) (p : ManageSubtasksParams)
    (t : Task) (hf : findTaskById s p.taskId = some t) (hP : CompletedAtSoundInv s) :
    CompletedAtSoundInv (deleteAction s p t).2 := by
  unfold deleteAction
  repeat' split
  all_goals dsimp only
  all_goals try exact hP
  all_goals refine completedAtSound_commit_delete s p.taskId p.subtaskId t _ hf ?_ hP
  all_goals assumption

theorem breakDownAction_sound (s : TaskManagerFile) (p : ManageSubtasksParams)
    (now : String) (hP : CompletedAtSoundInv s) :
    CompletedAtSoundInv (breakDownAction s p now).2 := by
  unfold breakDownAction
  repeat' split
  all_goals dsimp only
  all_goals repeat' split
  all_goals try exact hP
  apply taskPredAll_commitSubs hP
  intro t' hft'
  intro st hst
  intro hsomeAt
  rw [(processBatch_fresh false _ _ _ _ _ _ st hst).1] at hsomeAt
  exact nomatch hsomeAt

theorem completedAtSound_manageSubtasks (s : TaskManagerFile)
    (p : ManageSubtasksParams) (now : String) (hP : CompletedAtSoundInv s) :
    CompletedAtSoundInv (manageSubtasks s p now).2 := by
  unfold manageSubtasks
  cases hf : findTaskById s p.taskId with
  | none => exact hP
  | some t =>
    cases hact : p.action
    · exact createAction_sound s p now t hf hP
    · exact updateAction_sound s p now t hf hP
    · exact completeAction_sound s p now t hf hP
    · exact deleteAction_sound s p t hf hP
    · exact breakDownAction_sound s p now hP

theorem doneSubtasksInv_manageSubtasks (s : TaskManagerFile)
    (p : ManageSubtasksParams) (now : String)
    (hnd : ∀ t, findTaskById s p.taskId = some t → t.done = false)
    (hP : DoneSubtasksInv s) : DoneSubtasksInv (manageSubtasks s p now).2 := by
  rcases manageSubtasks_state s p now with h | ⟨ns, h⟩
  · rw [h]; exact hP
  · rw [h]
    apply taskPredAll_commitSubs hP
    intro t hft
    exact doneGuard_of_not_done (hnd t hft)

/-! ## Invariants along every run -/

theorem completedAtSound_step {s s' : TaskManagerFile} (h : Step s s')
    (hP : CompletedAtSoundInv s) : CompletedAtSoundInv s' := by
  cases h with
  | plan orig tasks split =>
    exact taskPredAll_requestPlanning s orig tasks split hP
      (fun _ _ _ => completedAtSoundT_of_none rfl)
  | addTasks rid tasks =>
    exact taskPredAll_addTasksToRequest s rid tasks hP
      (fun _ _ _ => completedAtSoundT_of_none rfl)
  | updTask rid tid ti de =>
    exact taskPredAll_updateTask s rid tid ti de hP (fun t a b h => h)
  | delTask rid tid => exact taskPredAll_deleteTask s rid tid hP
  | markDone rid tid det =>
    exact taskPredAll_markTaskDone_stable s rid tid det hP (fun t d h => h)
  | approveTask rid tid =>
    exact taskPredAll_approveTaskCompletion s rid tid hP (fun t h => h)
  | approveReq rid => exact taskPredAll_approveRequestCompletion s rid hP
  | clearAll => exact taskPredAll_clearAllTasks s
  | manage p now => exact completedAtSound_manageSubtasks s p now hP

theorem doneSubtasksInv_stepSafe {s s' : TaskManagerFile} (h : StepSafe s s')
    (hP : DoneSubtasksInv s) : DoneSubtasksInv s' := by
  cases h with
  | plan orig tasks split =>
    exact taskPredAll_requestPlanning s orig tasks split hP
      (fun _ _ _ => doneGuard_of_not_done rfl)
  | addTasks rid tasks =>
    exact taskPredAll_addTasksToRequest s rid tasks hP
      (fun _ _ _ => doneGuard_of_not_done rfl)
  | updTask rid tid ti de =>
    exact taskPredAll_updateTask s rid tid ti de hP (fun t a b h => h)
  | delTask rid tid => exact taskPredAll_deleteTask s rid tid hP
  | markDone rid tid det => exact doneSubtasksInv_markTaskDone s rid tid det hP
  | approveTask rid tid =>
    exact taskPredAll_approveTaskCompletion s rid tid hP (fun t h => h)
  | approveReq rid => exact taskPredAll_approveRequestCompletion s rid hP
  | clearAll => exact taskPredAll_clearAllTasks s
  | manage p now hnd => exact doneSubtasksInv_manageSubtasks s p now hnd hP

/-- C8 (amended): in every reachable state, a subtask carrying
`completedAt` has status `completed` (the sound direction); the claimed
equivalence fails because `create`/`break_down` accept an initial status of
`completed` without setting `completedAt` (see the counterexample). -/
theorem completedAtSound_reachable (s : TaskManagerFile) (h : Reachable s) :
    CompletedAtSoundInv s := by
  induction h with
  | refl => intro r hr; cases hr
  | tail _ hstep ih => exact completedAtSound_step hstep ih

/-- C2 (amended): the invariant "every done task with a non-empty subtask
list has all subtasks completed" holds in every state reachable from the
empty dataset when subtask mutations are applied only to tasks whose `done`
flag is still false; the unrestricted claim fails because `manageSubtasks`
never consults `done` (see the counterexample). -/
theorem doneSubtasksInv_reachableSafe (s : TaskManagerFile) (h : ReachableSafe s) :
    DoneSubtasksInv s := by
  induction h with
  | refl => intro r hr; cases hr
  | tail _ hstep ih => exact doneSubtasksInv_stepSafe hstep ih

theorem enumMap_eq_rangeMap {α β : Type} (l : List α) (g : Nat → β) :
    l.enum.map (fun it => g it.1) = (List.range l.length).map g := by
  rw [List.enum_eq_zip_range]
  have h1 : ((List.range l.length).zip l).map (fun it => g it.1) =
      (((List.range l.length).zip l).map Prod.fst).map g := by
    rw [List.map_map]; rfl
  rw [h1, List.map_fst_zip _ _ (by rw [List.length_range])]

/-- C5 (counterexample): on a request whose single task is done and
approved, a first `approveRequestCompletion` succeeds and sets `completed`,
and a second invocation on the resulting state succeeds again — the
operation never rejects an already-completed request, contradicting
"succeeds exactly once". -/
theorem c5_cex :
    (approveRequestCompletion c5Start "req-1").1 = "request_approved_complete" ∧
    c5Once.requests.map (fun r => r.completed) = [true] ∧
    (approveRequestCompletion c5Once "req-1").1 = "request_approved_complete" := by
  decide

/-- C5 (amended): for an existing request, `approveRequestCompletion`
fails with an error and no state change unless every task is done and
approved; when they all are it succeeds and sets `completed := true`, and
the operation is idempotent: a second invocation succeeds again and leaves
the state unchanged (there is no already-completed rejection). -/
theorem approveRequestCompletion_spec (s : TaskManagerFile) (rid : String)
    (req : RequestEntry) (hfr : findReq s rid = some req) :
    (¬ req.tasks.all (fun t => t.done && t.approved) = true →
       approveRequestCompletion s rid = ("error", s)) ∧
    (req.tasks.all (fun t => t.done && t.approved) = true →
       (approveRequestCompletion s rid).1 = "request_approved_complete" ∧
       findReq (approveRequestCompletion s rid).2 rid = some { req with completed := true } ∧
       approveRequestCompletion (approveRequestCompletion s rid).2 rid =
         ("request_approved_complete", (approveRequestCompletion s rid).2)) := by
  have step : ∀ (s' : TaskManagerFile) (req' : RequestEntry),
      findReq s' rid = some req' →
      req'.tasks.all (fun t => t.done && t.approved) = true →
      (approveRequestCompletion s' rid).1 = "request_approved_complete" ∧
      (approveRequestCompletion s' rid).2 =
        mapReqById s' rid (fun r => { r with completed := true }) := by
    intro s' req' hfr' hall
    have hdone : req'.tasks.all (fun t => t.done) = true := by
      rw [List.all_eq_true] at hall ⊢
      intro t ht
      have h := hall t ht
      rw [Bool.and_eq_true] at h
      exact h.1
    unfold approveRequestCompletion
    rw [hfr']
    dsimp only
    rw [if_neg (by rw [hdone]; decide), if_neg (by rw [hall]; decide)]
    exact ⟨rfl, rfl⟩
  constructor
  · intro hnall
    unfold approveRequestCompletion
    rw [hfr]
    dsimp only
    by_cases hdone : req.tasks.all (fun t => t.done) = true
    · rw [if_neg (by rw [hdone]; decide)]
      have hf : req.tasks.all (fun t => t.done && t.approved) = false :=
        Bool.eq_false_iff.mpr hnall
      rw [if_pos (by rw [hf]; decide)]
    · have hf : req.tasks.all (fun t => t.done) = false := Bool.eq_false_iff.mpr hdone
      rw [if_pos (by rw [hf]; decide)]
  · intro hall
    obtain ⟨h1, h2⟩ := step s req hfr hall
    have hfind : findReq (approveRequestCompletion s rid).2 rid =
        some { req with completed := true } := by
      rw [h2, findReq_mapReqById s rid (fun r => { r with completed := true })
        (fun r => rfl), hfr]
      rfl
    refine ⟨h1, hfind, ?_⟩
    obtain ⟨h1', h2'⟩ := step (approveRequestCompletion s rid).2
      { req with completed := true } hfind hall
    have hstate : (approveRequestCompletion (approveRequestCompletion s rid).2 rid).2 =
        (approveRequestCompletion s rid).2 := by
      rw [h2']
      unfold mapReqById
      have heq : updateFirst (fun r => r.requestId == rid)
          (fun r => { r with completed := true })
          ((approveRequestCompletion s rid).2).requests =
          ((approveRequestCompletion s rid).2).requests := by
        apply updateFirst_eq_self
        intro y hy
        have hy' : findReq (approveRequestCompletion s rid).2 rid = some y := hy
        rw [hfind] at hy'
        have hyq : y = { req with completed := true } := (Option.some.inj hy').symm
        rw [hyq]
      rw [heq]
    rw [Prod.ext_iff]
    exact ⟨h1', hstate⟩

theorem plan_ids (s : TaskManagerFile) (orig : String)
    (tasks : List (String × String)) (split : Option String) :
    (requestPlanning s orig tasks split).1.requestId =
      "req-" ++ toString (loadRequestCounter s + 1) ∧
    (requestPlanning s orig tasks split).1.taskIds =
      (List.range tasks.length).map (fun i =>
        "req-" ++ ("req-" ++ toString (loadRequestCounter s + 1)) ++
          "-task-" ++ toString (i + 1)) := by
  refine ⟨rfl, ?_⟩
  unfold requestPlanning
  dsimp only
  rw [List.map_map]
  exact enumMap_eq_rangeMap tasks (fun i =>
    "req-" ++ ("req-" ++ toString (loadRequestCounter s + 1)) ++ "-task-" ++ toString (i + 1))

theorem addTasks_newTaskIds (s : TaskManagerFile) (rid : String)
    (tasks : List (String × String)) (req : RequestEntry)
    (hfr : findReq s rid = some req) (hnc : req.completed = false) :
    (addTasksToRequest s rid tasks).1.newTaskIds =
      (List.range tasks.length).map (fun i =>
        "req-" ++ rid ++ "-task-" ++
          toString (maxNat (req.tasks.map (fun t => taskNumOf t.id)) + 1 + i)) := by
  have hmax : (if req.tasks.isEmpty = true then 0
      else maxNat (req.tasks.map (fun t => taskNumOf t.id))) =
      maxNat (req.tasks.map (fun t => taskNumOf t.id)) := by
    cases hT : req.tasks with
    | nil => rfl
    | cons a l => rfl
  unfold addTasksToRequest
  rw [hfr]
  dsimp only
  rw [if_neg (by rw [hnc]; decide)]
  dsimp only
  rw [hmax, List.map_map]
  exact enumMap_eq_rangeMap tasks (fun i =>
    "req-" ++ rid ++ "-task-" ++
      toString (maxNat (req.tasks.map (fun t => taskNumOf t.id)) + 1 + i))

/-- C6 (counterexample): plan a request with two tasks (numbers 1 and 2),
delete the task holding number 2, then add a task: the new task is assigned
number 2 again, so task numbers are reused after the maximum-numbered task
is deleted. -/
theorem c6_cex :
    (requestPlanning emptyFile "o" [("t1", "d1"), ("t2", "d2")] none).1.taskIds =
      ["req-req-1-task-1", "req-req-1-task-2"] ∧
    (deleteTask c6S1 "req-1" "req-req-1-task-2").1 = "task_deleted" ∧
    (addTasksToRequest c6S2 "req-1" [("t3", "d3")]).1.newTaskIds =
      ["req-req-1-task-2"] ∧
    taskNumOf "req-req-1-task-2" = 2 := by decide

/-- C6 (amended): within one `addTasksToRequest` call the assigned numbers
are strictly increasing and each exceeds every task number currently parsed
from the request (they continue from the maximum + 1); numbers are not
globally fresh over time — after the task holding the maximum is deleted a
later call may reuse its number (see the counterexample). -/
theorem c6_amended (s : TaskManagerFile) (rid : String)
    (tasks : List (String × String)) (req : RequestEntry)
    (hfr : findReq s rid = some req) (hnc : req.completed = false) :
    (addTasksToRequest s rid tasks).1.newTaskIds =
      (List.range tasks.length).map (fun i =>
        "req-" ++ rid ++ "-task-" ++
          toString (maxNat (req.tasks.map (fun t => taskNumOf t.id)) + 1 + i)) ∧
    (∀ t' ∈ req.tasks,
      taskNumOf t'.id ≤ maxNat (req.tasks.map (fun t => taskNumOf t.id))) ∧
    List.Pairwise (· < ·) ((List.range tasks.length).map (fun i =>
      maxNat (req.tasks.map (fun t => taskNumOf t.id)) + 1 + i)) := by
  refine ⟨addTasks_newTaskIds s rid tasks req hfr hnc, ?_, ?_⟩
  · intro t' ht'
    exact le_maxNat (List.mem_map.mpr ⟨t', ht', rfl⟩)
  · exact (List.pairwise_lt_range tasks.length).map _ (fun a b hab => by omega)

/-- C7 (counterexample): planning from the empty dataset yields requestId
`req-1` but task id `req-req-1-task-1`, not the claimed
`<requestId>-task-1` = `req-1-task-1`: the template prefixes `req-` to the
full requestId. -/
theorem c7_cex :
    (requestPlanning emptyFile "o" [("t1", "d1")] none).1.requestId = "req-1" ∧
    (requestPlanning emptyFile "o" [("t1", "d1")] none).1.taskIds =
      ["req-req-1-task-1"] ∧
    "req-req-1-task-1" ≠ "req-1" ++ "-task-" ++ toString 1 := by decide

/-- C7 (amended): every task id has the form
`"req-" ++ requestId ++ "-task-" ++ k` (a double `req-req-<n>` prefix);
planning numbers its tasks 1..n, and `addTasksToRequest` continues from the
maximum existing task number + 1. -/
theorem c7_amended (s : TaskManagerFile) (orig : String)
    (tasks : List (String × String)) (split : Option String) (rid : String)
    (tasks2 : List (String × String)) (req : RequestEntry)
    (hfr : findReq s rid = some req) (hnc : req.completed = false) :
    (requestPlanning s orig tasks split).1.requestId =
      "req-" ++ toString (loadRequestCounter s + 1) ∧
    (requestPlanning s orig tasks split).1.taskIds =
      (List.range tasks.length).map (fun i =>
        "req-" ++ (requestPlanning s orig tasks split).1.requestId ++
          "-task-" ++ toString (i + 1)) ∧
    (addTasksToRequest s rid tasks2).1.newTaskIds =
      (List.range tasks2.length).map (fun i =>
        "req-" ++ rid ++ "-task-" ++
          toString (maxNat (req.tasks.map (fun t => taskNumOf t.id)) + 1 + i)) := by
  obtain ⟨h1, h2⟩ := plan_ids s orig tasks split
  exact ⟨h1, by rw [h2, h1], addTasks_newTaskIds s rid tasks2 req hfr hnc⟩

theorem createAction_cases (s : TaskManagerFile) (p : ManageSubtasksParams)
    (now : String) (t : Task) :
    (createAction s p now t).1.status = "error" ∨
      ∃ ns, (createAction s p now t).2 = commitSubs s p.taskId ns := by
  unfold createAction
  repeat' split
  all_goals dsimp only
  all_goals repeat' split
  all_goals first | exact Or.inl rfl | exact Or.inr ⟨_, rfl⟩

theorem updateAction_cases (s : TaskManagerFile) (p : ManageSubtasksParams)
    (now : String) (t : Task) :
    (updateAction s p now t).1.status = "error" ∨
      ∃ ns, (updateAction s p now t).2 = commitSubs s p.taskId ns := by
  unfold updateAction
  repeat' split
  all_goals dsimp only
  all_goals repeat' split
  all_goals first | exact Or.inl rfl | exact Or.inr ⟨_, rfl⟩

theorem completeAction_cases (s : TaskManagerFile) (p : ManageSubtasksParams)
    (now : String) (t : Task) :
    (completeAction s p now t).1.status = "error" ∨
      ∃ ns, (completeAction s p now t).2 = commitSubs s p.taskId ns := by
  unfold completeAction
  repeat' split
  all_goals dsimp only
  all_goals first | exact Or.inl rfl | exact Or.inr ⟨_, rfl⟩

theorem deleteAction_cases (s : TaskManagerFile) (p : ManageSubtasksParams) (t : Task) :
    (deleteAction s p t).1.status = "error" ∨
      ∃ ns, (deleteAction s p t).2 = commitSubs s p.taskId ns := by
  unfold deleteAction
  repeat' split
  all_goals dsimp only
  all_goals first | exact Or.inl rfl | exact Or.inr ⟨_, rfl⟩

theorem breakDownAction_cases (s : TaskManagerFile) (p : ManageSubtasksParams)
    (now : String) :
    (breakDownAction s p now).1.status = "error" ∨
      ∃ ns, (breakDownAction s p now).2 = commitSubs s p.taskId ns := by
  unfold breakDownAction
  repeat' split
  all_goals dsimp only
  all_goals repeat' split
  all_goals first | exact Or.inl rfl | exact Or.inr ⟨_, rfl⟩

theorem manageSubtasks_ok_state (s : TaskManagerFile) (p : ManageSubtasksParams)
    (now : String) (hok : (manageSubtasks s p now).1.status ≠ "error") :
    ∃ t, findTaskById s p.taskId = some t ∧
      ∃ ns, (manageSubtasks s p now).2 = commitSubs s p.taskId ns := by
  cases hf : findTaskById s p.taskId with
  | none =>
    exfalso
    apply hok
    show (manageSubtasks s p now).1.status = "error"
    unfold manageSubtasks
    rw [hf]
    rfl
  | some t =>
    refine ⟨t, rfl, ?_⟩
    cases hact : p.action with
    | create =>
      have he : manageSubtasks s p now = createAction s p now t := by
        unfold manageSubtasks; rw [hf, hact]
      rw [he] at hok ⊢
      rcases createAction_cases s p now t with h | h
      · exact absurd h hok
      · exact h
    | update =>
      have he : manageSubtasks s p now = updateAction s p now t := by
        unfold manageSubtasks; rw [hf, hact]
      rw [he] at hok ⊢
      rcases updateAction_cases s p now t with h | h
      · exact absurd h hok
      · exact h
    | complete =>
      have he : manageSubtasks s p now = completeAction s p now t := by
        unfold manageSubtasks; rw [hf, hact]
      rw [he] at hok ⊢
      rcases completeAction_cases s p now t with h | h
      · exact absurd h hok
      · exact h
    | delete =>
      have he : manageSubtasks s p now = deleteAction s p t := by
        unfold manageSubtasks; rw [hf, hact]
      rw [he] at hok ⊢
      rcases deleteAction_cases s p t with h | h
      · exact absurd h hok
      · exact h
    | break_down =>
      have he : manageSubtasks s p now = breakDownAction s p now := by
        unfold manageSubtasks; rw [hf, hact]
      rw [he] at hok ⊢
      rcases breakDownAction_cases s p now with h | h
      · exact absurd h hok
      · exact h

/-- C3 (amended): after every successful subtask mutation (any action of
`manageSubtasks` whose result status is not `error`), the owning task's
`completionPercentage` equals `calculateCompletionPercentage` of its new
subtask list, i.e. the IEEE-754 binary64 evaluation
`jsPct completed total` of `Math.round((completed / total) * 100)`.  This
floating-point value differs from exact half-up rounding of
`100 * completed / total` at some inputs (the program stores 57 at 23 of 40
completed, where exact rounding gives 58; see the counterexample), so the
stored percentage is the double computation, not the exact one. -/
theorem manageSubtasks_completionPercentage (s : TaskManagerFile) (p : ManageSubtasksParams) (now : String)
    (hok : (manageSubtasks s p now).1.status ≠ "error") :
    ∃ t' l, findTaskById (manageSubtasks s p now).2 p.taskId = some t' ∧
      t'.subtasks = some l ∧
      t'.completionPercentage = some (calculateCompletionPercentage l) ∧
      (l ≠ [] → t'.completionPercentage =
        some (jsPct (l.filter (fun st => st.status == SubtaskStatus.completed)).length
          l.length)) := by
  obtain ⟨t, hf, ns, hstate⟩ := manageSubtasks_ok_state s p now hok
  have hfind : findTaskById (manageSubtasks s p now).2 p.taskId =
      some { t with subtasks := some ns, completionPercentage := some (calculateCompletionPercentage ns) } := by
    rw [hstate, findTaskById_commitSubs, hf]
    rfl
  refine ⟨_, ns, hfind, rfl, rfl, ?_⟩
  · intro hne
    show some (calculateCompletionPercentage ns) = _
    unfold calculateCompletionPercentage
    rw [if_neg (by
      intro habs
      exact hne (List.isEmpty_iff.mp habs))]

/-- C1: for an existing request and task, `markTaskDone` on a not-yet-done
task fails with status `subtasks_incomplete` iff the task has one or more
subtasks and at least one is not completed; that failure carries the task's
stored completion percentage (`completionPercentage || 0`) and the count of
non-completed subtasks and leaves the state unchanged; otherwise the task is
marked done; on an already-done task it returns `already_done` without
changing state. -/
theorem markTaskDone_spec (s : TaskManagerFile) (rid tid : String) (det : Option String)
    (req : RequestEntry) (task : Task)
    (hfr : findReq s rid = some req)
    (hft : req.tasks.find? (fun t => t.id == tid) = some task) :
    (task.done = true → markTaskDone s rid tid det = ({ status := "already_done" }, s)) ∧
    (task.done = false →
      (((markTaskDone s rid tid det).1.status = "subtasks_incomplete") ↔
        (task.subtasks.getD [] ≠ [] ∧
          ¬ ∀ st ∈ task.subtasks.getD [], st.status = SubtaskStatus.completed)) ∧
      ((task.subtasks.getD [] ≠ [] ∧
          ¬ ∀ st ∈ task.subtasks.getD [], st.status = SubtaskStatus.completed) →
        markTaskDone s rid tid det =
          ({ status := "subtasks_incomplete",
             completionPercentage := some (task.completionPercentage.getD 0),
             remainingSubtasks := some ((task.subtasks.getD []).filter
               (fun st => st.status != SubtaskStatus.completed)).length }, s)) ∧
      (¬ (task.subtasks.getD [] ≠ [] ∧
          ¬ ∀ st ∈ task.subtasks.getD [], st.status = SubtaskStatus.completed) →
        (markTaskDone s rid tid det).1.status = "task_marked_done")) := by
  have hcond : ((!(task.subtasks.getD []).isEmpty &&
      !((task.subtasks.getD []).all fun st => st.status == SubtaskStatus.completed)) = true) ↔
      (task.subtasks.getD [] ≠ [] ∧
        ¬ ∀ st ∈ task.subtasks.getD [], st.status = SubtaskStatus.completed) := by
    rw [Bool.and_eq_true]
    constructor
    · rintro ⟨h1, h2⟩
      constructor
      · intro hnil
        rw [hnil] at h1
        exact absurd h1 (by decide)
      · intro hall
        have hA : ((task.subtasks.getD []).all fun st =>
            st.status == SubtaskStatus.completed) = true := by
          rw [List.all_eq_true]
          intro st hst
          exact beq_iff_eq.mpr (hall st hst)
        rw [hA] at h2
        exact absurd h2 (by decide)
    · rintro ⟨h1, h2⟩
      constructor
      · have hE : (task.subtasks.getD []).isEmpty = false :=
          Bool.eq_false_iff.mpr (fun habs => h1 (List.isEmpty_iff.mp habs))
        rw [hE]
        rfl
      · have hA : ((task.subtasks.getD []).all fun st =>
            st.status == SubtaskStatus.completed) = false := by
          apply Bool.eq_false_iff.mpr
          intro habs
          exact h2 (fun st hst => beq_iff_eq.mp (List.all_eq_true.mp habs st hst))
        rw [hA]
        rfl
  unfold markTaskDone
  rw [hfr]
  dsimp only
  rw [hft]
  dsimp only
  constructor
  · intro hd
    rw [if_pos hd]
  · intro hd
    rw [if_neg (by rw [hd]; decide)]
    by_cases hc : ((!(task.subtasks.getD []).isEmpty &&
        !((task.subtasks.getD []).all fun st => st.status == SubtaskStatus.completed)) = true)
    · rw [if_pos hc]
      refine ⟨?_, ?_, ?_⟩
      · exact iff_of_true rfl (hcond.mp hc)
      · intro _; rfl
      · intro hnot; exact absurd (hcond.mp hc) hnot
    · rw [if_neg hc]
      refine ⟨?_, ?_, ?_⟩
      · refine iff_of_false (fun habs => ?_) (fun habs => hc (hcond.mpr habs))
        have habs2 : "task_marked_done" = "subtasks_incomplete" := habs
        exact absurd habs2 (by decide)
      · intro habs; exact absurd habs (fun habs2 => hc (hcond.mpr habs2))
      · intro _; rfl

/-- C4: `validateStatusTransition` is exactly the table
{pending→in_progress|cancelled, in_progress→completed|pending|cancelled,
completed→pending, cancelled→pending}; no self-transition is allowed; a
status-only `update` applies the change iff the pair is in the table and
rejects without state change otherwise, entering `completed` sets
`completedAt` and leaving it clears it; `complete` succeeds iff the
transition to `completed` is legal (in particular an already-completed
subtask is rejected) and changes nothing on rejection. -/
theorem subtaskTransition_spec (s : TaskManagerFile) (now tid sid : String)
    (t : Task) (l : List Subtask) (st : Subtask) (ns : SubtaskStatus)
    (hf : findTaskById s tid = some t) (hsubs : t.subtasks = some l)
    (hfind : l.find? (fun x => some x.id == some sid) = some st)
    (hsid : sid ≠ "") :
    (∀ a b : SubtaskStatus,
      validateStatusTransition a b = true ↔ (a, b) ∈ allowedTransitions) ∧
    (∀ a : SubtaskStatus, validateStatusTransition a a = false) ∧
    (((manageSubtasks s (updParams tid sid ns) now).1.status = "subtask_updated") ↔
      validateStatusTransition st.status ns = true) ∧
    (validateStatusTransition st.status ns = false →
      (manageSubtasks s (updParams tid sid ns) now).2 = s) ∧
    (validateStatusTransition st.status ns = true →
      (manageSubtasks s (updParams tid sid ns) now).2 =
        commitSubs s tid (updateFirst (fun x => some x.id == some sid)
          (applySubtaskUpdates (statusOnly ns) now) l) ∧
      (applySubtaskUpdates (statusOnly ns) now st).status = ns ∧
      (ns = SubtaskStatus.completed →
        (applySubtaskUpdates (statusOnly ns) now st).completedAt = some now) ∧
      (st.status = SubtaskStatus.completed →
        (applySubtaskUpdates (statusOnly ns) now st).completedAt = none)) ∧
    (((manageSubtasks s (comParams tid sid) now).1.status = "subtask_completed") ↔
      validateStatusTransition st.status SubtaskStatus.completed = true) ∧
    (validateStatusTransition st.status SubtaskStatus.completed = false →
      (manageSubtasks s (comParams tid sid) now).2 = s) := by
  have hsidT : (sid != "") = true := bne_iff_ne.mpr hsid
  have heU : manageSubtasks s (updParams tid sid ns) now =
      updateAction s (updParams tid sid ns) now t := by
    unfold manageSubtasks updParams
    rw [hf]
  have heC : manageSubtasks s (comParams tid sid) now =
      completeAction s (comParams tid sid) now t := by
    unfold manageSubtasks comParams
    rw [hf]
  have hupdate : updateAction s (updParams tid sid ns) now t =
      (if validateStatusTransition st.status ns then
        ({ status := "subtask_updated",
           completionPercentage := some (calculateCompletionPercentage
             (updateFirst (fun x => some x.id == some sid)
               (applySubtaskUpdates (statusOnly ns) now) l)) },
         commitSubs s tid (updateFirst (fun x => some x.id == some sid)
           (applySubtaskUpdates (statusOnly ns) now) l))
       else (msError "UPDATE_VALIDATION_FAILED", s)) := by
    unfold updateAction updParams statusOnly
    rw [if_neg (by dsimp only [optTruthy]; rw [hsidT]; decide)]
    dsimp only
    rw [if_neg (fun h => nomatch h)]
    rw [hsubs]
    dsimp only
    rw [hfind]
    dsimp only
    by_cases hv : validateStatusTransition st.status ns = true
    · rw [hv]
      rfl
    · rw [Bool.eq_false_iff.mpr hv]
      rfl
  have hcomplete : completeAction s (comParams tid sid) now t =
      (if validateStatusTransition st.status SubtaskStatus.completed then
        ({ status := "subtask_completed",
           completionPercentage := some (calculateCompletionPercentage
             (updateFirst (fun x => some x.id == some sid)
               (fun x => { x with status := SubtaskStatus.completed,
                                  completedAt := some now }) l)),
           remainingSubtasks := some (((updateFirst (fun x => some x.id == some sid)
             (fun x => { x with status := SubtaskStatus.completed,
                                completedAt := some now }) l).filter
               (fun x => x.status != SubtaskStatus.completed)).length) },
         commitSubs s tid (updateFirst (fun x => some x.id == some sid)
           (fun x => { x with status := SubtaskStatus.completed,
                              completedAt := some now }) l))
       else (msError (if st.status == SubtaskStatus.completed then "ALREADY_COMPLETED"
         else "INVALID_TRANSITION"), s)) := by
    unfold completeAction comParams
    rw [if_neg (by dsimp only [optTruthy]; rw [hsidT]; decide)]
    rw [hsubs]
    dsimp only
    rw [hfind]
    dsimp only
    by_cases hc : st.status = SubtaskStatus.completed
    · rw [hc]
      rfl
    · rw [beq_eq_false_iff_ne.mpr hc]
      by_cases hv : validateStatusTransition st.status SubtaskStatus.completed = true
      · rw [hv]
        rfl
      · rw [Bool.eq_false_iff.mpr hv]
        rfl
  refine ⟨by decide, by decide, ?_, ?_, ?_, ?_, ?_⟩
  · rw [heU, hupdate]
    by_cases hv : validateStatusTransition st.status ns = true
    · rw [if_pos hv]
      exact iff_of_true rfl hv
    · rw [if_neg (by rw [Bool.eq_false_iff.mpr hv]; decide)]
      refine iff_of_false (fun habs => ?_) hv
      have habs2 : "error" = "subtask_updated" := habs
      exact absurd habs2 (by decide)
  · intro hv'
    rw [heU, hupdate, if_neg (by rw [hv']; decide)]
  · intro hv
    rw [heU, hupdate, if_pos hv]
    refine ⟨rfl, ?_, ?_, ?_⟩
    · unfold applySubtaskUpdates statusOnly
      dsimp only
      split
      · rfl
      · split
        · rfl
        · rfl
    · intro hnsc
      have hne : st.status ≠ SubtaskStatus.completed := by
        intro hcc
        rw [hcc, hnsc] at hv
        exact absurd hv (by decide)
      unfold applySubtaskUpdates statusOnly
      dsimp only
      rw [if_pos (by rw [hnsc]; simp [bne_iff_ne, hne])]
    · intro hstc
      have hne : ns ≠ SubtaskStatus.completed := by
        intro hcc
        rw [hstc] at hv
        rw [hcc] at hv
        exact absurd hv (by decide)
      unfold applySubtaskUpdates statusOnly
      dsimp only
      rw [if_neg (by rw [hstc]; simp), if_pos (by rw [hstc]; simp [bne_iff_ne, hne])]
  · rw [heC, hcomplete]
    by_cases hv : validateStatusTransition st.status SubtaskStatus.completed = true
    · rw [if_pos hv]
      exact iff_of_true rfl hv
    · rw [if_neg (by rw [Bool.eq_false_iff.mpr hv]; decide)]
      refine iff_of_false (fun habs => ?_) hv
      have habs2 : "error" = "subtask_completed" := habs
      exact absurd habs2 (by decide)
  · intro hv'
    rw [heC, hcomplete, if_neg (by rw [hv']; decide)]

theorem processBatch_dup_errs (ex : List Subtask) (tid now : String) :
    ∀ (subs : List SubtaskInput) (i c : Nat) (sub : SubtaskInput),
      sub ∈ subs → validateUniqueContent ex sub.content = false →
      (processBatch true ex tid now subs i c).1 ≠ [] := by
  intro subs
  induction subs with
  | nil => intro i c sub hin; cases hin
  | cons hd rest ih =>
    intro i c sub hin hdup
    rw [processBatch]
    by_cases h1 : (!(validateSubtaskData hd.content).isEmpty) = true
    · rw [if_pos h1]
      exact List.cons_ne_nil _ _
    · rw [if_neg h1]
      rcases List.mem_cons.mp hin with rfl | hmem
      · rw [if_pos (by rw [hdup]; rfl)]
        exact List.cons_ne_nil _ _
      · by_cases h2 : (true && !validateUniqueContent ex hd.content) = true
        · rw [if_pos h2]
          exact List.cons_ne_nil _ _
        · rw [if_neg h2]
          dsimp only
          exact ih _ _ sub hmem hdup

theorem validateSubtaskData_nil (c : String) (h0 : c ≠ "")
    (h1 : c.length ≤ 500) (h2 : (trimStr c).length ≠ 0) :
    validateSubtaskData c = [] := by
  unfold validateSubtaskData
  rw [if_neg (by simpa using h0)]
  rw [if_neg (by omega), if_neg (by simpa using h2)]
  rfl

/-- C9: creating a subtask whose content case-insensitively matches an
existing sibling is rejected with no state change; updating a subtask to
content matching another sibling (the updated subtask itself excluded) is
rejected with no state change, while content matching only itself is
accepted; and through the tool layer (which trims) a second subtask
"fix bug " under a task already holding "Fix bug" is rejected. -/
theorem duplicateContent_spec (s : TaskManagerFile) (tid now : String) (t : Task)
    (hf : findTaskById s tid = some t) :
    (∀ (subs0 : List SubtaskInput) (sub : SubtaskInput) (sib : Subtask),
      sub ∈ subs0 → sib ∈ t.subtasks.getD [] →
      lowerStr sib.content = lowerStr sub.content →
      (manageSubtasks s (createParams tid subs0) now).1.status = "error" ∧
      (manageSubtasks s (createParams tid subs0) now).2 = s) ∧
    (∀ (sid c : String) (l : List Subtask) (st other : Subtask),
      t.subtasks = some l → l.find? (fun x => some x.id == some sid) = some st →
      sid ≠ "" → c ≠ "" → other ∈ l → other.id ≠ sid →
      lowerStr other.content = lowerStr c →
      (manageSubtasks s (updContentParams tid sid c) now).1.status = "error" ∧
      (manageSubtasks s (updContentParams tid sid c) now).2 = s) ∧
    (∀ (sid c : String) (l : List Subtask) (st : Subtask),
      t.subtasks = some l → l.find? (fun x => some x.id == some sid) = some st →
      sid ≠ "" → c ≠ "" → c.length ≤ 500 → (trimStr c).length ≠ 0 →
      (∀ other ∈ l, other.id ≠ sid → lowerStr other.content ≠ lowerStr c) →
      (manageSubtasks s (updContentParams tid sid c) now).1.status = "subtask_updated") ∧
    ((manageSubtasksTool c9State
        (createParams "req-req-1-task-1" [{ content := "fix bug " }])
        "T1").1.status = "error" ∧
      (manageSubtasksTool c9State
        (createParams "req-req-1-task-1" [{ content := "fix bug " }])
        "T1").2 = c9State) := by
  refine ⟨?_, ?_, ?_, by decide⟩
  · intro subs0 sub sib hin hsib hdup
    have hvu : validateUniqueContent (t.subtasks.getD []) sub.content = false := by
      unfold validateUniqueContent
      have hany : ((t.subtasks.getD []).any fun x =>
          lowerStr x.content == lowerStr sub.content && some x.id != none) = true := by
        rw [List.any_eq_true]
        exact ⟨sib, hsib, by rw [hdup]; simp⟩
      rw [hany]
      rfl
    have he : manageSubtasks s (createParams tid subs0) now =
        createAction s (createParams tid subs0) now t := by
      unfold manageSubtasks createParams
      rw [hf]
    rw [he]
    unfold createAction createParams
    rw [if_neg (by
      intro habs
      rw [List.isEmpty_iff] at habs
      dsimp only at habs
      rw [habs] at hin
      cases hin)]
    dsimp only
    rw [if_pos (by
      have := processBatch_dup_errs (t.subtasks.getD []) tid now subs0 0
        (loadTaskCounter s) sub hin hvu
      cases hpb : (processBatch true (t.subtasks.getD []) tid now subs0 0
          (loadTaskCounter s)).1 with
      | nil => exact absurd hpb this
      | cons a as => rfl)]
    exact ⟨rfl, rfl⟩
  · intro sid c l st other hsubs hfind hsid hc hother hoid hdup
    have hsidT : (sid != "") = true := bne_iff_ne.mpr hsid
    have hcT : (c != "") = true := bne_iff_ne.mpr hc
    have hvu : validateUniqueContent l c (some sid) = false := by
      unfold validateUniqueContent
      have hany : (l.any fun x =>
          lowerStr x.content == lowerStr c && some x.id != some sid) = true := by
        rw [List.any_eq_true]
        refine ⟨other, hother, ?_⟩
        rw [hdup]
        simp [bne_iff_ne, hoid]
      rw [hany]
      rfl
    have he : manageSubtasks s (updContentParams tid sid c) now =
        updateAction s (updContentParams tid sid c) now t := by
      unfold manageSubtasks updContentParams
      rw [hf]
    rw [he]
    unfold updateAction updContentParams
    rw [if_neg (by dsimp only [optTruthy]; rw [hsidT]; decide)]
    dsimp only
    rw [if_neg (by dsimp only [optTruthy]; rw [hcT]; decide)]
    rw [hsubs]
    dsimp only
    rw [hfind]
    dsimp only [optTruthy, Option.getD]
    rw [hcT]
    by_cases hve : (validateSubtaskData c).isEmpty = true
    · rw [if_pos rfl, hve, hvu]
      exact ⟨rfl, rfl⟩
    · have hne : validateSubtaskData c ≠ [] := fun habs => hve (by rw [habs]; rfl)
      rw [if_pos rfl, Bool.eq_false_iff.mpr hve]
      cases hL : validateSubtaskData c with
      | nil => exact absurd hL hne
      | cons a as => exact ⟨rfl, rfl⟩
  · intro sid c l st hsubs hfind hsid hc hlen htrim huniq
    have hsidT : (sid != "") = true := bne_iff_ne.mpr hsid
    have hcT : (c != "") = true := bne_iff_ne.mpr hc
    have hve : validateSubtaskData c = [] := validateSubtaskData_nil c hc hlen htrim
    have hvu : validateUniqueContent l c (some sid) = true := by
      unfold validateUniqueContent
      have hany : (l.any fun x =>
          lowerStr x.content == lowerStr c && some x.id != some sid) = false := by
        rw [List.any_eq_false]
        intro x hx
        by_cases hxid : x.id = sid
        · simp [hxid]
        · simp only [Bool.and_eq_true, not_and]
          intro hlow
          exact absurd (beq_iff_eq.mp hlow) (huniq x hx hxid)
      rw [hany]
      rfl
    have he : manageSubtasks s (updContentParams tid sid c) now =
        updateAction s (updContentParams tid sid c) now t := by
      unfold manageSubtasks updContentParams
      rw [hf]
    rw [he]
    unfold updateAction updContentParams
    rw [if_neg (by dsimp only [optTruthy]; rw [hsidT]; decide)]
    dsimp only
    rw [if_neg (by dsimp only [optTruthy]; rw [hcT]; decide)]
    rw [hsubs]
    dsimp only
    rw [hfind]
    dsimp only [optTruthy, Option.getD]
    rw [hcT, if_pos rfl, hve, hvu]
    rfl

theorem find?_notDone_congr : ∀ {l₁ l₂ : List Task},
    l₁.map eraseApproved = l₂.map eraseApproved →
    (l₁.find? (fun t => !t.done)).map (fun t => t.id) =
      (l₂.find? (fun t => !t.done)).map (fun t => t.id) := by
  intro l₁
  induction l₁ with
  | nil =>
    intro l₂ h
    rw [List.map_nil] at h
    have h2 : l₂ = [] := List.map_eq_nil_iff.mp h.symm
    rw [h2]
  | cons a t ih =>
    intro l₂ h
    cases l₂ with
    | nil => exact absurd (List.map_nil (f := eraseApproved) ▸ h) (by simp)
    | cons b t₂ =>
      rw [List.map_cons, List.map_cons] at h
      have hhead : eraseApproved a = eraseApproved b := (List.cons.inj h).1
      have htail : t.map eraseApproved = t₂.map eraseApproved := (List.cons.inj h).2
      have hdone : a.done = b.done := by
        have hq := congrArg (fun x : Task => x.done) hhead
        simpa [eraseApproved] using hq
      have hid : a.id = b.id := by
        have hq := congrArg (fun x : Task => x.id) hhead
        simpa [eraseApproved] using hq
      by_cases hd : a.done = true
      · rw [List.find?_cons_of_neg _ (by rw [hd]; decide),
          List.find?_cons_of_neg _ (by rw [← hdone, hd]; decide)]
        exact ih htail
      · have hd' : a.done = false := Bool.eq_false_iff.mpr hd
        rw [List.find?_cons_of_pos _ (by rw [hd']; rfl),
          List.find?_cons_of_pos _ (by rw [← hdone, hd']; rfl)]
        rw [Option.map_some', Option.map_some', hid]

/-- C10: for an existing, not-completed request, `getNextTask` returns the
first task in stored order whose `done` flag is false (or `all_tasks_done`
when none), and the outcome is unchanged under any modification of the
tasks' `approved` flags — approval state never influences selection, so a
done-but-unapproved task is skipped. -/
theorem getNextTask_spec (s : TaskManagerFile) (rid : String) (req : RequestEntry)
    (hfr : findReq s rid = some req) (hnc : req.completed = false) :
    (∀ t, req.tasks.find? (fun t => !t.done) = some t →
        getNextTask s rid = { status := "next_task", taskId := some t.id }) ∧
    (req.tasks.find? (fun t => !t.done) = none →
        getNextTask s rid = { status := "all_tasks_done", taskId := none }) ∧
    (∀ (s₂ : TaskManagerFile) (req₂ : RequestEntry), findReq s₂ rid = some req₂ →
      req₂.completed = false →
      req.tasks.map eraseApproved = req₂.tasks.map eraseApproved →
      getNextTask s rid = getNextTask s₂ rid) := by
  have hmain : ∀ (s' : TaskManagerFile) (req' : RequestEntry),
      findReq s' rid = some req' → req'.completed = false →
      getNextTask s' rid =
        (match req'.tasks.find? (fun t => !t.done) with
         | some t => { status := "next_task", taskId := some t.id }
         | none => { status := "all_tasks_done", taskId := none }) := by
    intro s' req' hfr' hnc'
    unfold getNextTask
    rw [hfr']
    dsimp only
    rw [if_neg (by rw [hnc']; decide)]
    cases hft : req'.tasks.find? (fun t => !t.done) with
    | some t => rfl
    | none =>
      dsimp only
      have hall : (req'.tasks.all fun t => t.done) = true := by
        rw [List.all_eq_true]
        intro t ht
        have := List.find?_eq_none.mp hft t ht
        simpa using this
      rw [if_pos (by rw [hall, hnc']; rfl)]
  refine ⟨?_, ?_, ?_⟩
  · intro t ht
    rw [hmain s req hfr hnc, ht]
  · intro hnone
    rw [hmain s req hfr hnc, hnone]
  · intro s₂ req₂ hfr₂ hnc₂ happ
    rw [hmain s req hfr hnc, hmain s₂ req₂ hfr₂ hnc₂]
    have := find?_notDone_congr happ
    cases h1 : req.tasks.find? (fun t => !t.done) with
    | none =>
      rw [h1] at this
      cases h2 : req₂.tasks.find? (fun t => !t.done) with
      | none => rfl
      | some b => rw [h2] at this; cases this
    | some a =>
      rw [h1] at this
      cases h2 : req₂.tasks.find? (fun t => !t.done) with
      | none => rw [h2] at this; cases this
      | some b =>
        rw [h2] at this
        rw [Option.map_some', Option.map_some'] at this
        have hid : a.id = b.id := Option.some.inj this
        dsimp only
        rw [hid]

/-! ## Claim counterexamples and witnesses -/

/-- C2 (counterexample): the state reached from the empty dataset by
planning a request, marking its only task done, and then creating a pending
subtask under the already-done task is reachable yet violates the invariant
that a done task with subtasks has them all completed — `manageSubtasks`
never checks `done`. -/
theorem c2_cex : Reachable c2Bad ∧ ¬ DoneSubtasksInv c2Bad :=
  ⟨Relation.ReflTransGen.tail
    (Relation.ReflTransGen.tail
      (Relation.ReflTransGen.single
        (Step.plan emptyFile "build the app" [("t1", "d1")] none))
      (Step.markDone c2State1 "req-1" "req-req-1-task-1" none))
    (Step.manage c2State2 c2Params "2024-01-01T00:00:00.000Z"),
   by decide⟩

/-- C3 (counterexample): from the reachable state holding a task with 40
subtasks (22 completed, 1 in progress, 17 pending), completing the
in-progress subtask is a successful mutation after which the task has 23 of
40 subtasks completed, yet the stored `completionPercentage` is 57 — the
binary64 value of `Math.round((23 / 40) * 100)`, whose intermediate product
is the double just below `57.5` — while exact half-up rounding of
`100 * 23 / 40` is 58.  The original claim's equality therefore fails. -/
theorem c3_cex :
    Reachable c3State ∧
    (manageSubtasks c3State c3Complete "T2").1.status = "subtask_completed" ∧
    ((findTaskById (manageSubtasks c3State c3Complete "T2").2 "req-req-1-task-1").bind
        (fun t => t.subtasks)).map (fun l =>
          ((l.filter (fun st => st.status == SubtaskStatus.completed)).length, l.length))
      = some (23, 40) ∧
    ((findTaskById (manageSubtasks c3State c3Complete "T2").2 "req-req-1-task-1").bind
        (fun t => t.completionPercentage)) = some 57 ∧
    specRoundPct 23 40 = 58 ∧ (57 : Nat) ≠ 58 :=
  ⟨Relation.ReflTransGen.tail
     (Relation.ReflTransGen.single
       (Step.plan emptyFile "big build" [("t1", "d1")] none))
     (Step.manage c3Plan c3Create "T1"),
   by decide, by decide, by decide, by decide, by decide⟩

theorem doneSubtasksInv_reachableSafe_witness : DoneSubtasksInv c2State2 :=
  doneSubtasksInv_reachableSafe c2State2
    (Relation.ReflTransGen.tail
      (Relation.ReflTransGen.single
        (StepSafe.plan emptyFile "build the app" [("t1", "d1")] none))
      (StepSafe.markDone c2State1 "req-1" "req-req-1-task-1" none))

/-- C8 (counterexample): creating a subtask with caller-supplied initial
status `completed` leaves `completedAt` absent, so the claimed
present-iff-completed invariant fails in a reachable state. -/
theorem c8_cex : Reachable c8Bad ∧ ¬ CompletedAtIffInv c8Bad :=
  ⟨Relation.ReflTransGen.tail
    (Relation.ReflTransGen.single
      (Step.plan emptyFile "build the app" [("t1", "d1")] none))
    (Step.manage c2State1 c8Params "2024-01-01T00:00:00.000Z"),
   by decide⟩

theorem completedAtSound_reachable_witness : CompletedAtSoundInv c8Bad :=
  completedAtSound_reachable c8Bad
    (Relation.ReflTransGen.tail
      (Relation.ReflTransGen.single
        (Step.plan emptyFile "build the app" [("t1", "d1")] none))
      (Step.manage c2State1 c8Params "2024-01-01T00:00:00.000Z"))

theorem markTaskDone_spec_witness :
    (markTaskDone wState "req-1" "req-req-1-task-1" none).1.status =
      "subtasks_incomplete" := by
  have h := markTaskDone_spec wState "req-1" "req-req-1-task-1" none wReq wTask
    (by decide) (by decide)
  exact (h.2 (by decide)).1.mpr (by decide)

theorem manageSubtasks_completionPercentage_witness :
    ∃ t' l, findTaskById (manageSubtasks wState c3wParams "T1").2
        c3wParams.taskId = some t' ∧
      t'.subtasks = some l ∧
      t'.completionPercentage = some (calculateCompletionPercentage l) ∧
      (l ≠ [] → t'.completionPercentage =
        some (jsPct (l.filter (fun st => st.status == SubtaskStatus.completed)).length
          l.length)) :=
  manageSubtasks_completionPercentage wState c3wParams "T1" (by decide)

theorem subtaskTransition_spec_witness :
    (manageSubtasks wState
      (updParams "req-req-1-task-1" "req-req-1-task-1-subtask-1"
        SubtaskStatus.in_progress) "T1").1.status = "subtask_updated" := by
  have h := subtaskTransition_spec wState "T1" "req-req-1-task-1"
    "req-req-1-task-1-subtask-1" wTask [wSub] wSub SubtaskStatus.in_progress
    (by decide) (by decide) (by decide) (by decide)
  exact h.2.2.1.mpr (by decide)

theorem approveRequestCompletion_spec_witness :
    (approveRequestCompletion c5Start "req-1").1 = "request_approved_complete" := by
  have h := approveRequestCompletion_spec c5Start "req-1" c5Req (by decide)
  exact (h.2 (by decide)).1

theorem c6_amended_witness :
    (addTasksToRequest wState "req-1" [("x", "y")]).1.newTaskIds =
      (List.range 1).map (fun i =>
        "req-" ++ "req-1" ++ "-task-" ++
          toString (maxNat (wReq.tasks.map (fun t => taskNumOf t.id)) + 1 + i)) := by
  have h := c6_amended wState "req-1" [("x", "y")] wReq (by decide) (by decide)
  exact h.1

theorem c7_amended_witness :
    (requestPlanning wState "another request" [("a", "b")] none).1.requestId =
      "req-" ++ toString (loadRequestCounter wState + 1) := by
  have h := c7_amended wState "another request" [("a", "b")] none "req-1"
    [("c", "d")] wReq (by decide) (by decide)
  exact h.1

theorem duplicateContent_spec_witness :
    (manageSubtasksTool c9State
      (createParams "req-req-1-task-1" [{ content := "fix bug " }]) "T1").1.status =
      "error" := by
  have h := duplicateContent_spec c9State "req-req-1-task-1" "T1" c9Task (by decide)
  exact h.2.2.2.1

theorem getNextTask_spec_witness :
    getNextTask c10State "req-1" =
      { status := "next_task", taskId := some "req-req-1-task-2" } := by
  have h := getNextTask_spec c10State "req-1" c10Req (by decide) (by decide)
  exact h.1 c10TaskOpen (by decide)

end TodoBuild
